import Mathlib

/-!
# AstroLens: the APOD acquisition chain and its renderer

A shallow embedding of `src/script.js` (functions `initAPOD`, `renderApod`,
`escapeHtml`) and the properties its specification states about them.

Conventions of the embedding:

* A JavaScript string value is a `JsString`, the list of its UTF-16 code units;
  `js "text"` is the value of the string literal `"text"`.  A character outside
  the Basic Multilingual Plane is two units (a surrogate pair), so `slice` and
  `replace` act on units exactly as the engine does, and a string ending in
  half a pair is a value like any other.
* Property names, URLs, API keys and console texts are Unicode texts and stay
  Lean `String`s.
* A value parsed by `res.json()` is a `JsVal`.  A Number is carried by the two
  observations this program can make of it (its `ToString` text and its
  `ToBoolean` value).
* An `await`ed promise that rejects and a `throw` are both the `.error` case of
  `Except JsError`.
* What a run of `initAPOD` does to the outside world is recorded as a list of
  `Event`s, in program order.
-/

namespace AstroLens

/-! ## JavaScript values -/

/-- UTF-16 code unit, a number below `0x10000`. -/
abbrev CodeUnit := Nat

/-- JavaScript string value: its sequence of UTF-16 code units. -/
abbrev JsString := List CodeUnit

/-- UTF-16 encoding of one character: itself within the Basic Multilingual
Plane, a high and a low surrogate above it. -/
def utf16 (c : Char) : List CodeUnit :=
  if c.toNat < 0x10000 then [c.toNat]
  else [0xD800 + (c.toNat - 0x10000) / 0x400, 0xDC00 + (c.toNat - 0x10000) % 0x400]

/-- The string value denoted by a text, e.g. by a string literal of the source. -/
def js (s : String) : JsString :=
  s.data.flatMap utf16

/-- Number value, known to the model by what the program can observe of it. -/
structure JsNum where
  /-- The result of `ToString` on the number, e.g. `"42"` or `"1.5"`. -/
  text : String
  /-- The result of `ToBoolean` on the number: false for `0`, `-0` and `NaN`. -/
  truthy : Bool

/-- Values that a property read or `JSON.parse` can produce.  An object is its
list of own properties, each key occurring once. -/
inductive JsVal where
  | undefined
  | null
  | bool (b : Bool)
  | num (n : JsNum)
  | str (s : JsString)
  | arr (xs : List JsVal)
  | obj (ps : List (String × JsVal))

/-- Thrown values and promise rejections. -/
inductive JsError where
  /-- Raised by the engine: property read on `null`/`undefined`, call of a
  non-function, failed conversion to a primitive. -/
  | typeError
  /-- Rejection reason of `fetch(..)` or `res.json()`, supplied by the platform. -/
  | rejected (message : String)
  /-- Value of `new Error(message)`. -/
  | error (message : String)

/-- ECMAScript `ToBoolean`. -/
def truthy : JsVal → Bool
  | .undefined => false
  | .null => false
  | .bool b => b
  | .num n => n.truthy
  | .str s => !s.isEmpty
  | .arr _ => true
  | .obj _ => true

/-- Whether the property list has an own property of that name. -/
def hasOwn (key : String) (ps : List (String × JsVal)) : Bool :=
  ps.any fun p => p.1 == key

mutual
/-- ECMAScript `String(v)` (`ToString`).  An array is joined with commas
(`Array.prototype.join`); a plain object gives `[object Object]` unless an own
`toString` property shadows the inherited method with a non-callable value, in
which case the conversion to a primitive fails. -/
def toStr : JsVal → Except JsError JsString
  | .undefined => .ok (js "undefined")
  | .null => .ok (js "null")
  | .bool b => .ok (if b then js "true" else js "false")
  | .num n => .ok (js n.text)
  | .str s => .ok s
  | .arr xs =>
    match joinParts xs with
    | .ok parts => .ok ((js ",").intercalate parts)
    | .error e => .error e
  | .obj ps =>
    if hasOwn "toString" ps then .error .typeError else .ok (js "[object Object]")
/-- The element texts `Array.prototype.join` concatenates: the empty string for
`null` and `undefined`, `ToString` of the element otherwise. -/
def joinParts : List JsVal → Except JsError (List JsString)
  | [] => .ok []
  | .undefined :: xs =>
    match joinParts xs with
    | .ok rest => .ok ([] :: rest)
    | .error e => .error e
  | .null :: xs =>
    match joinParts xs with
    | .ok rest => .ok ([] :: rest)
    | .error e => .error e
  | x :: xs =>
    match toStr x with
    | .error e => .error e
    | .ok s =>
      match joinParts xs with
      | .ok rest => .ok (s :: rest)
      | .error e => .error e
end

/-- The property read `data.key` for the four names the renderer reads
(`title`, `media_type`, `url`, `explanation`).  Reading from `null` or
`undefined` throws; an object yields its own property or `undefined`; for
every other value the read reaches a built-in prototype, none of which defines
one of these names. -/
def getProp (data : JsVal) (key : String) : Except JsError JsVal :=
  match data with
  | .undefined => .error .typeError
  | .null => .error .typeError
  | .obj ps => .ok ((ps.lookup key).getD .undefined)
  | _ => .ok .undefined

/-- Strict equality `v === "lit"` against a string literal. -/
def strictEqStr (v : JsVal) (lit : String) : Bool :=
  match v with
  | .str s => s == js lit
  | _ => false

/-- The call `v.slice(0, 200)`: `String.prototype.slice` on a string (the first
200 code units), `Array.prototype.slice` on an array (the first 200 elements),
a `TypeError` on every other value (no callable `slice` is found). -/
def sliceCall (v : JsVal) : Except JsError JsVal :=
  match v with
  | .str s => .ok (.str (s.take 200))
  | .arr xs => .ok (.arr (xs.take 200))
  | _ => .error .typeError

/-! ## `escapeHtml` (script.js 179-184) -/

/-- The call `s.replace(/c/g, r)` for a pattern `c` of one code unit and a
replacement text `r` without `$`. -/
def replaceAll (c : CodeUnit) (r : JsString) (s : JsString) : JsString :=
  s.flatMap fun x => if x = c then r else [x]

/-- The three chained `replace` calls of `escapeHtml`, on the text `String(s)`. -/
def escapeText (s : JsString) : JsString :=
  replaceAll '>'.toNat (js "&gt;")
    (replaceAll '<'.toNat (js "&lt;") (replaceAll '&'.toNat (js "&amp;") s))

/-- Function `escapeHtml(s)`. -/
def escapeHtml (s : JsVal) : Except JsError JsString :=
  match toStr s with
  | .ok t => .ok (escapeText t)
  | .error e => .error e

/-! ## `renderApod` (script.js 155-172) -/

/-- Line 157: the heading, with the title defaulted by `||`. -/
def headingPart (data : JsVal) : Except JsError JsString :=
  match getProp data "title" with
  | .error e => .error e
  | .ok title =>
    match escapeHtml (if truthy title then title else .str (js "NASA APOD")) with
    | .error e => .error e
    | .ok shown => .ok (js "<h4>" ++ shown ++ js "</h4>")

/-- Lines 158-166: the media element, chosen by `media_type`. -/
def mediaPart (data : JsVal) : Except JsError JsString :=
  match getProp data "media_type" with
  | .error e => .error e
  | .ok mt =>
    if strictEqStr mt "image" then
      match getProp data "url" with
      | .error e => .error e
      | .ok url =>
        match escapeHtml url with
        | .error e => .error e
        | .ok src =>
          match getProp data "title" with
          | .error e => .error e
          | .ok title =>
            match escapeHtml title with
            | .error e => .error e
            | .ok alt =>
              .ok (js "<img src=\"" ++ src ++ js "\" alt=\"" ++ alt ++ js "\">")
    else if strictEqStr mt "video" then
      match getProp data "url" with
      | .error e => .error e
      | .ok url =>
        match escapeHtml url with
        | .error e => .error e
        | .ok href =>
          .ok (js "<a href=\"" ++ href ++
            js "\" target=\"_blank\" rel=\"noopener\">View video</a>")
    else .ok []

/-- Lines 167-170: the explanation paragraph, present when `data.explanation`
is truthy. -/
def explanationPart (data : JsVal) : Except JsError JsString :=
  match getProp data "explanation" with
  | .error e => .error e
  | .ok expl =>
    if truthy expl then
      match sliceCall expl with
      | .error e => .error e
      | .ok cut =>
        match escapeHtml cut with
        | .error e => .error e
        | .ok text => .ok (js "<p class=\"muted\">" ++ text ++ js "...</p>")
    else .ok []

/-- Lines 157-170 of `renderApod`: the value of the local `html` when the
assignment of line 171 is reached, or the error thrown before reaching it. -/
def renderMarkup (data : JsVal) : Except JsError JsString :=
  match headingPart data with
  | .error e => .error e
  | .ok h =>
    match mediaPart data with
    | .error e => .error e
    | .ok m =>
      match explanationPart data with
      | .error e => .error e
      | .ok p => .ok (h ++ m ++ p)

/-! ## The world around `initAPOD` -/

/-- Observable effects of a run, in program order. -/
inductive Event where
  /-- Request issued by `fetch(url)`. -/
  | fetch (url : String)
  /-- Assignment `area.innerHTML = html`. -/
  | setInnerHTML (html : JsString)
  /-- Call `console.debug(label, err.message)`. -/
  | debug (label : String) (err : JsError)
  /-- Call `console.warn(label, e)`. -/
  | warn (label : String) (err : JsError)

/-- Resolved `fetch` response: its status and what `res.json()` settles to. -/
structure Response where
  status : Nat
  body : Except JsError JsVal

/-- Property `res.ok`: the status is in the range 200-299. -/
def Response.ok (r : Response) : Bool :=
  decide (200 ≤ r.status) && decide (r.status ≤ 299)

/-- Everything `initAPOD` reads from its surroundings. -/
structure Env where
  /-- Whether `document.getElementById("apod-area")` finds an element. -/
  area : Bool
  /-- What `await fetch(url)` settles to. -/
  fetch : String → Except JsError Response
  /-- Global `window.NASA_API_KEY`, `none` when undefined. -/
  NASA_API_KEY : Option String
  /-- Global `window.CLIENT_NASA_API_KEY`, `none` when undefined. -/
  CLIENT_NASA_API_KEY : Option String
  /-- The `content` of the `meta[name="nasa-api-key"]` element, `none` when the
  element or the attribute is missing. -/
  metaContent : Option String

/-- Function `renderApod(area, data)`: builds the markup and assigns it to
`area.innerHTML` as its last step. -/
def renderApod (data : JsVal) : Except JsError Unit × List Event :=
  match renderMarkup data with
  | .ok html => (.ok (), [.setInnerHTML html])
  | .error e => (.error e, [])

/-! ## `initAPOD` (script.js 93-147) -/

/-- How the body of an inner `try` block ends when it does not throw. -/
inductive Flow where
  /-- The `return` of line 104 / 116 was executed. -/
  | returned
  /-- Control left the block at its end (the response was not ok). -/
  | fellThrough

/-- Body of the inner `try` blocks (lines 100-105 and 112-117). -/
def proxyAttempt (env : Env) (url : String) : Except JsError Flow × List Event :=
  match env.fetch url with
  | .error e => (.error e, [.fetch url])
  | .ok res =>
    if res.ok then
      match res.body with
      | .error e => (.error e, [.fetch url])
      | .ok data =>
        match renderApod data with
        | (.ok (), ev) => (.ok .returned, .fetch url :: ev)
        | (.error e, ev) => (.error e, .fetch url :: ev)
    else (.ok .fellThrough, [.fetch url])

/-- One inner `try { .. } catch (err) { console.debug(label, err.message) }`. -/
def proxyTier (env : Env) (url label : String) : Flow × List Event :=
  match proxyAttempt env url with
  | (.ok flow, ev) => (flow, ev)
  | (.error e, ev) => (.fellThrough, ev ++ [.debug label e])

/-- ECMAScript `ToBoolean` on a key that is `undefined`/`null` or a string. -/
def truthyKey : Option String → Bool
  | none => false
  | some s => !s.data.isEmpty

/-- The operator `a || b` on keys. -/
def jsOr (a b : Option String) : Option String :=
  if truthyKey a then a else b

/-- Lines 123-127: `clientKey` (`null` is `none`). -/
def clientKey (env : Env) : Option String :=
  if truthyKey (jsOr env.NASA_API_KEY env.CLIENT_NASA_API_KEY) then
    jsOr env.NASA_API_KEY env.CLIENT_NASA_API_KEY
  else none

/-- Line 133: `apiKey = clientKey || metaKey || "hdjf"`. -/
def apiKey (env : Env) : String :=
  match jsOr (clientKey env) env.metaContent with
  | none => "hdjf"
  | some k => if k.data.isEmpty then "hdjf" else k

/-- Upper-case hexadecimal digit. -/
def hexDigit (n : Nat) : Char :=
  "0123456789ABCDEF".data.getD n '0'

/-- UTF-8 octets of a code point. -/
def utf8Octets (c : Nat) : List Nat :=
  if c < 0x80 then [c]
  else if c < 0x800 then [0xC0 + c / 0x40, 0x80 + c % 0x40]
  else if c < 0x10000 then [0xE0 + c / 0x1000, 0x80 + c / 0x40 % 0x40, 0x80 + c % 0x40]
  else [0xF0 + c / 0x40000, 0x80 + c / 0x1000 % 0x40, 0x80 + c / 0x40 % 0x40, 0x80 + c % 0x40]

/-- Characters `encodeURIComponent` leaves as they are. -/
def uriUnreserved (c : Char) : Bool :=
  c.isAlphanum || "-_.!~*'()".data.contains c

/-- Built-in `encodeURIComponent`: every other character becomes the `%XX`
escapes of its UTF-8 octets. -/
def encodeURIComponent (s : String) : String :=
  ⟨s.data.flatMap fun c =>
    if uriUnreserved c then [c]
    else (utf8Octets c.toNat).flatMap fun b => ['%', hexDigit (b / 16), hexDigit (b % 16)]⟩

/-- Argument of the `fetch` of lines 135-139. -/
def keyUrl (env : Env) : String :=
  "https://api.nasa.gov/planetary/apod?api_key=" ++ encodeURIComponent (apiKey env)

/-- Lines 135-142: the key-based request and what follows it. -/
def keyAttempt (env : Env) : Except JsError Unit × List Event :=
  match env.fetch (keyUrl env) with
  | .error e => (.error e, [.fetch (keyUrl env)])
  | .ok res =>
    if !res.ok then
      (.error (.error ("APOD fetch failed: " ++ toString res.status)), [.fetch (keyUrl env)])
    else
      match res.body with
      | .error e => (.error e, [.fetch (keyUrl env)])
      | .ok data =>
        match renderApod data with
        | (r, ev) => (r, .fetch (keyUrl env) :: ev)

/-- Body of the outer `try` (lines 98-142). -/
def chain (env : Env) : Except JsError Unit × List Event :=
  match proxyTier env "/.netlify/functions/apod" "Netlify function not available" with
  | (.returned, ev1) => (.ok (), ev1)
  | (.fellThrough, ev1) =>
    match proxyTier env "/api/apod" "Local API proxy not available" with
    | (.returned, ev2) => (.ok (), ev1 ++ ev2)
    | (.fellThrough, ev2) =>
      match keyAttempt env with
      | (r, ev3) => (r, ev1 ++ ev2 ++ ev3)

/-- Markup of the error path (line 144). -/
def errorPlaceholder : JsString :=
  js "<p class=\"muted\">Unable to load NASA APOD.</p>"

/-- Function `initAPOD()`: how the call completes, and its effects. -/
def initAPOD (env : Env) : Except JsError Unit × List Event :=
  if !env.area then (.ok (), [])
  else
    match chain env with
    | (.ok (), ev) => (.ok (), ev)
    | (.error e, ev) =>
      (.ok (), ev ++ [.setInnerHTML errorPlaceholder, .warn "APOD initialization error:" e])

/-! ## Vocabulary of the properties -/

/-- Single-pass description of `escapeText`: what one code unit becomes. -/
def escChar (c : CodeUnit) : JsString :=
  if c = '&'.toNat then js "&amp;"
  else if c = '<'.toNat then js "&lt;"
  else if c = '>'.toNat then js "&gt;"
  else [c]

/-- The three entity tails that may follow an ampersand. -/
def EntityTail (post : JsString) : Prop :=
  js "amp;" <+: post ∨ js "lt;" <+: post ∨ js "gt;" <+: post

/-- Whether the last code unit read is `<`, starting from the flag `p`. -/
def ltState (p : Bool) (l : JsString) : Bool :=
  l.foldl (fun _ c => c == '<'.toNat) p

/-- The code units that directly follow a `<`; `p` tells whether a `<` was
read just before the list. -/
def tagLettersFrom (p : Bool) : JsString → JsString
  | [] => []
  | c :: cs =>
    if p then c :: tagLettersFrom (c == '<'.toNat) cs else tagLettersFrom (c == '<'.toNat) cs

/-- First letters of all tags of a markup text (`/` for a closing tag). -/
def tagLetters (html : JsString) : JsString :=
  tagLettersFrom false html

/-- Textual containment of `needle` in `hay`. -/
def containsText (needle hay : JsString) : Prop :=
  needle <:+: hay

instance (needle hay : JsString) : Decidable (containsText needle hay) := by
  unfold containsText; infer_instance

/-- URLs of the requests among the events, in order. -/
def requests (ev : List Event) : List String :=
  ev.filterMap fun e => match e with
    | .fetch u => some u
    | _ => none

/-- Values assigned to `area.innerHTML` among the events, in order. -/
def writes (ev : List Event) : List JsString :=
  ev.filterMap fun e => match e with
    | .setInnerHTML h => some h
    | _ => none

/-- The source at `url` succeeds and its record renders as `html`. -/
def SourceOk (env : Env) (url : String) (html : JsString) : Prop :=
  ∃ res data, env.fetch url = .ok res ∧ res.ok = true ∧ res.body = .ok data ∧
    renderMarkup data = .ok html

/-- The attempt at `url` fails. -/
def SourceFails (env : Env) (url : String) : Prop :=
  (∃ e, env.fetch url = .error e) ∨
  (∃ res, env.fetch url = .ok res ∧ res.ok = false) ∨
  (∃ res e, env.fetch url = .ok res ∧ res.ok = true ∧ res.body = .error e) ∨
  (∃ res data e, env.fetch url = .ok res ∧ res.ok = true ∧ res.body = .ok data ∧
    renderMarkup data = .error e)

/-- What the `catch` of a failing proxy tier logs. -/
def debugLog (env : Env) (url label : String) : List Event :=
  match env.fetch url with
  | .error e => [.debug label e]
  | .ok res =>
    if res.ok then
      match res.body with
      | .error e => [.debug label e]
      | .ok data =>
        match renderMarkup data with
        | .error e => [.debug label e]
        | .ok _ => []
    else []

/-- The markup the source at `url` delivers when its attempt succeeds: the
response is ok, its body parses and the parsed record renders. -/
def sourceMarkup (env : Env) (url : String) : Option JsString :=
  match env.fetch url with
  | .error _ => none
  | .ok res =>
    if res.ok then
      match res.body with
      | .error _ => none
      | .ok data =>
        match renderMarkup data with
        | .error _ => none
        | .ok html => some html
    else none

/-- The acquisition chain as the specification words it: the ordered source
list is folded from the left and the first success wins. -/
def acquireSpec (env : Env) : Option JsString :=
  ["/.netlify/functions/apod", "/api/apod", keyUrl env].findSome? (sourceMarkup env)

/-- Record of the first example of the specification's section 8. -/
def sampleImage : JsVal :=
  .obj [("title", .str (js "X")), ("media_type", .str (js "image")),
    ("url", .str (js "http://a/b.png"))]

/-- Record of the second example of the specification's section 8. -/
def sampleVideo : JsVal :=
  .obj [("title", .str (js "<script>")), ("explanation", .str (List.replicate 300 'A'.toNat)),
    ("media_type", .str (js "video")), ("url", .str (js "http://a"))]

/-- An environment whose only reachable source is `url` (any other request is
rejected), delivering `data` with status 200; no key is configured. -/
def envOnly (url : String) (data : JsVal) : Env where
  area := true
  fetch := fun u => if u = url then .ok ⟨200, .ok data⟩ else .error (.rejected "Failed to fetch")
  NASA_API_KEY := none
  CLIENT_NASA_API_KEY := none
  metaContent := none

/-- An environment in which every request is answered with status `status` and
a body that does not parse. -/
def envDown (status : Nat) (key : Option String) : Env where
  area := true
  fetch := fun _ => .ok ⟨status, .error (.rejected "Unexpected token")⟩
  NASA_API_KEY := key
  CLIENT_NASA_API_KEY := none
  metaContent := some "meta-key"

/-- The angle brackets of a markup text, in order. -/
def angles (html : JsString) : JsString :=
  html.filter fun c => c == '<'.toNat || c == '>'.toNat

/-- Summary of a piece of markup: its tag letters, its angle brackets, and
that it does not end in `<`. -/
def TagShape (s : JsString) (letters brackets : JsString) : Prop :=
  tagLettersFrom false s = letters ∧ ltState false s = false ∧ angles s = brackets

/-- Tag letters of the media element chosen for a `media_type` value. -/
def mediaLetters (mt : JsVal) : JsString :=
  if strictEqStr mt "image" then js "i" else if strictEqStr mt "video" then js "a/" else []

/-- Angle brackets of the media element chosen for a `media_type` value. -/
def mediaBrackets (mt : JsVal) : JsString :=
  if strictEqStr mt "image" then js "<>"
  else if strictEqStr mt "video" then js "<><>"
  else []

/-- Tag letters of the explanation paragraph for an `explanation` value. -/
def paragraphLetters (expl : JsVal) : JsString :=
  if truthy expl then js "p/" else []

/-- Angle brackets of the explanation paragraph for an `explanation` value. -/
def paragraphBrackets (expl : JsVal) : JsString :=
  if truthy expl then js "<><>" else []

/-- Markup of `sampleVideo`: escaped title, link, explanation cut to 200. -/
def sampleVideoMarkup : JsString :=
  js "<h4>&lt;script&gt;</h4><a href=\"http://a\" target=\"_blank\" rel=\"noopener\">View video</a>"
    ++ js "<p class=\"muted\">" ++ List.replicate 200 'A'.toNat ++ js "...</p>"

/-- The character U+1F600, two code units in a JavaScript string. -/
def grinning : Char := Char.ofNat 0x1F600

/-- Whether three consecutive dots occur, given that `n` dots were read just
before the list. -/
def hasDots3From (n : Nat) : JsString → Bool
  | [] => false
  | c :: cs =>
    if c = '.'.toNat then decide (3 ≤ n + 1) || hasDots3From (n + 1) cs
    else hasDots3From 0 cs

/-- Number of dots at the end of what was read, starting from `n`. -/
def dotRun (n : Nat) (l : JsString) : Nat :=
  l.foldl (fun k c => if c = '.'.toNat then k + 1 else 0) n

/-- A piece of markup that leaves no dot pending at its end, whatever was read
before it; `d` tells whether three consecutive dots occur in it. -/
def Sealed (s : JsString) (d : Bool) : Prop :=
  ∀ n, hasDots3From n s = d ∧ dotRun n s = 0

/-- A record whose explanation is the letter `A` followed by 150 times U+1F600:
301 code units, the 200th being the first half of a surrogate pair. -/
def sampleAstral : JsVal :=
  .obj [("explanation", .str (js ⟨'A' :: List.replicate 150 grinning⟩))]

/-- Markup of `sampleAstral`: the paragraph holds `A`, 99 whole pairs and the
high surrogate `0xD83D` of the hundredth, 200 code units in all. -/
def sampleAstralMarkup : JsString :=
  js "<h4>NASA APOD</h4>" ++
    (js "<p class=\"muted\">" ++ (js ⟨'A' :: List.replicate 99 grinning⟩ ++ [0xD83D]) ++
      js "...</p>")

/-! ## Lemmas -/

theorem escapeText_eq (s : JsString) : escapeText s = s.flatMap escChar := by
  simp only [escapeText, replaceAll, List.flatMap_assoc]
  congr 1
  funext c
  by_cases h1 : c = '&'.toNat
  · subst h1; rfl
  · by_cases h2 : c = '<'.toNat
    · subst h2; rfl
    · by_cases h3 : c = '>'.toNat
      · subst h3; rfl
      · simp only [escChar, if_neg h1, if_neg h2, if_neg h3, List.flatMap_cons,
          List.flatMap_nil, List.append_nil]

theorem escChar_no_lt (c : CodeUnit) : '<'.toNat ∉ escChar c := by
  unfold escChar
  split_ifs with h1 h2 h3
  · decide
  · decide
  · decide
  · intro h
    exact h2 (List.mem_singleton.1 h).symm

theorem escChar_no_gt (c : CodeUnit) : '>'.toNat ∉ escChar c := by
  unfold escChar
  split_ifs with h1 h2 h3
  · decide
  · decide
  · decide
  · intro h
    exact h3 (List.mem_singleton.1 h).symm

theorem escapeText_no_lt (s : JsString) : '<'.toNat ∉ escapeText s := by
  rw [escapeText_eq]
  intro h
  obtain ⟨c, -, hc⟩ := List.mem_flatMap.1 h
  exact escChar_no_lt c hc

theorem escapeText_no_gt (s : JsString) : '>'.toNat ∉ escapeText s := by
  rw [escapeText_eq]
  intro h
  obtain ⟨c, -, hc⟩ := List.mem_flatMap.1 h
  exact escChar_no_gt c hc

theorem split_after_chunk (a : CodeUnit) (chunk rest : JsString) (h : a ∉ chunk) :
    ∀ pre post, chunk ++ rest = pre ++ a :: post →
      ∃ pre2, pre = chunk ++ pre2 ∧ rest = pre2 ++ a :: post := by
  induction chunk with
  | nil => intro pre post e; exact ⟨pre, rfl, e⟩
  | cons x xs ih =>
    intro pre post e
    have hx : x ≠ a := fun hx => h (by simp [hx])
    have hxs : a ∉ xs := fun hm => h (List.mem_cons_of_mem _ hm)
    cases pre with
    | nil =>
      simp only [List.nil_append, List.cons_append, List.cons.injEq] at e
      exact absurd e.1 hx
    | cons y ys =>
      simp only [List.cons_append, List.cons.injEq] at e
      obtain ⟨pre2, h1, h2⟩ := ih hxs ys post e.2
      exact ⟨pre2, by simp [e.1, h1], h2⟩

theorem amp_chunk (a : CodeUnit) (tail rest : JsString) (h : a ∉ tail) (pre post : JsString)
    (e : a :: tail ++ rest = pre ++ a :: post) :
    tail <+: post ∨ ∃ pre2, rest = pre2 ++ a :: post := by
  cases pre with
  | nil =>
    simp only [List.nil_append, List.cons_append, List.cons.injEq, true_and] at e
    exact Or.inl ⟨rest, e⟩
  | cons y ys =>
    simp only [List.cons_append, List.cons.injEq] at e
    obtain ⟨pre2, -, h2⟩ := split_after_chunk a tail rest h ys post e.2
    exact Or.inr ⟨pre2, h2⟩

theorem flatMap_escChar_amp (l : JsString) :
    ∀ pre post, l.flatMap escChar = pre ++ '&'.toNat :: post → EntityTail post := by
  induction l with
  | nil => intro pre post e; simp at e
  | cons c cs ih =>
    intro pre post e
    rw [List.flatMap_cons] at e
    unfold escChar at e
    split_ifs at e with h1 h2 h3
    · rcases amp_chunk '&'.toNat (js "amp;") _ (by decide) pre post e with h | ⟨p2, h⟩
      · exact Or.inl h
      · exact ih p2 post h
    · rcases amp_chunk '&'.toNat (js "lt;") _ (by decide) pre post e with h | ⟨p2, h⟩
      · exact Or.inr (Or.inl h)
      · exact ih p2 post h
    · rcases amp_chunk '&'.toNat (js "gt;") _ (by decide) pre post e with h | ⟨p2, h⟩
      · exact Or.inr (Or.inr h)
      · exact ih p2 post h
    · obtain ⟨p2, -, h⟩ := split_after_chunk '&'.toNat [c] _
        (fun hm => h1 (List.mem_singleton.1 hm).symm) pre post e
      exact ih p2 post h

theorem escapeText_amp (s : JsString) (pre post : JsString)
    (e : escapeText s = pre ++ '&'.toNat :: post) : EntityTail post := by
  rw [escapeText_eq] at e
  exact flatMap_escChar_amp s pre post e

theorem ltState_append (p : Bool) (a b : JsString) :
    ltState p (a ++ b) = ltState (ltState p a) b := by
  simp only [ltState, List.foldl_append]

theorem tagLettersFrom_cons (p : Bool) (c : CodeUnit) (cs : JsString) :
    tagLettersFrom p (c :: cs) =
      if p then c :: tagLettersFrom (c == '<'.toNat) cs
      else tagLettersFrom (c == '<'.toNat) cs := rfl

theorem ltState_cons (p : Bool) (c : CodeUnit) (cs : JsString) :
    ltState p (c :: cs) = ltState (c == '<'.toNat) cs := rfl

theorem tagLettersFrom_append (p : Bool) (a b : JsString) :
    tagLettersFrom p (a ++ b) = tagLettersFrom p a ++ tagLettersFrom (ltState p a) b := by
  induction a generalizing p with
  | nil => rfl
  | cons c cs ih =>
    rw [List.cons_append, tagLettersFrom_cons, tagLettersFrom_cons, ltState_cons, ih]
    cases p
    · rfl
    · rfl

theorem ltState_of_no_lt (l : JsString) (h : '<'.toNat ∉ l) : ltState false l = false := by
  induction l using List.reverseRecOn with
  | nil => rfl
  | append_singleton xs x _ =>
    have hx : x ≠ '<'.toNat := fun e => h (by simp [e])
    simp only [ltState, List.foldl_append, List.foldl_cons, List.foldl_nil]
    exact beq_false_of_ne hx

theorem tagLettersFrom_of_no_lt (l : JsString) (h : '<'.toNat ∉ l) :
    tagLettersFrom false l = [] := by
  induction l with
  | nil => rfl
  | cons c cs ih =>
    have hc : c ≠ '<'.toNat := fun e => h (by simp [e])
    have hcs : '<'.toNat ∉ cs := fun hm => h (List.mem_cons_of_mem _ hm)
    have hb : (c == '<'.toNat) = false := beq_false_of_ne hc
    rw [tagLettersFrom_cons, hb, ih hcs]
    rfl

theorem mem_tagLettersFrom_of_infix (c : CodeUnit) (w l : JsString) (p : Bool)
    (h : ('<'.toNat :: c :: w) <:+: l) : c ∈ tagLettersFrom p l := by
  obtain ⟨pre, post, e⟩ := h
  subst e
  rw [List.append_assoc, tagLettersFrom_append]
  apply List.mem_append_right
  rw [List.cons_append, List.cons_append, tagLettersFrom_cons, tagLettersFrom_cons,
    beq_self_eq_true, if_pos rfl]
  split_ifs
  · exact List.mem_cons_of_mem _ (List.mem_cons_self _ _)
  · exact List.mem_cons_self _ _
theorem escapeHtml_ok {v : JsVal} {out : JsString} (h : escapeHtml v = .ok out) :
    ∃ t, toStr v = .ok t ∧ out = escapeText t := by
  unfold escapeHtml at h
  split at h
  · next t ht => exact ⟨t, ht, by injection h with h; exact h.symm⟩
  · cases h

theorem strictEqStr_iff (v : JsVal) (lit : String) :
    strictEqStr v lit = true ↔ v = .str (js lit) := by
  cases v <;> simp [strictEqStr]

theorem headingPart_ok {data : JsVal} {hd : JsString} (h : headingPart data = .ok hd) :
    ∃ title shown, getProp data "title" = .ok title ∧
      escapeHtml (if truthy title then title else .str (js "NASA APOD")) = .ok shown ∧
      hd = js "<h4>" ++ shown ++ js "</h4>" := by
  unfold headingPart at h
  split at h
  · cases h
  · next title ht =>
    split at h
    · cases h
    · next shown hs =>
      injection h with h
      exact ⟨title, shown, ht, hs, h.symm⟩

theorem mediaPart_ok {data : JsVal} {md : JsString} (h : mediaPart data = .ok md) :
    ∃ mt, getProp data "media_type" = .ok mt ∧
      ((mt = .str (js "image") ∧ ∃ url src title alt, getProp data "url" = .ok url ∧
          escapeHtml url = .ok src ∧ getProp data "title" = .ok title ∧
          escapeHtml title = .ok alt ∧
          md = js "<img src=\"" ++ src ++ js "\" alt=\"" ++ alt ++ js "\">") ∨
       (mt = .str (js "video") ∧ ∃ url href, getProp data "url" = .ok url ∧
          escapeHtml url = .ok href ∧
          md = js "<a href=\"" ++ href ++
            js "\" target=\"_blank\" rel=\"noopener\">View video</a>") ∨
       (mt ≠ .str (js "image") ∧ mt ≠ .str (js "video") ∧ md = [])) := by
  unfold mediaPart at h
  split at h
  · cases h
  · next mt hmt =>
    refine ⟨mt, hmt, ?_⟩
    split_ifs at h with hi hv
    · left
      refine ⟨(strictEqStr_iff _ _).1 hi, ?_⟩
      split at h
      · cases h
      · next url hu =>
        split at h
        · cases h
        · next src hs =>
          split at h
          · cases h
          · next title ht =>
            split at h
            · cases h
            · next alt ha =>
              injection h with h
              exact ⟨url, src, title, alt, hu, hs, ht, ha, h.symm⟩
    · right; left
      refine ⟨(strictEqStr_iff _ _).1 hv, ?_⟩
      split at h
      · cases h
      · next url hu =>
        split at h
        · cases h
        · next href hs =>
          injection h with h
          exact ⟨url, href, hu, hs, h.symm⟩
    · right; right
      injection h with h
      exact ⟨fun e => hi ((strictEqStr_iff _ _).2 e), fun e => hv ((strictEqStr_iff _ _).2 e), h.symm⟩

theorem explanationPart_ok {data : JsVal} {ex : JsString}
    (h : explanationPart data = .ok ex) :
    ∃ expl, getProp data "explanation" = .ok expl ∧
      ((truthy expl = true ∧ ∃ cut text, sliceCall expl = .ok cut ∧ escapeHtml cut = .ok text ∧
          ex = js "<p class=\"muted\">" ++ text ++ js "...</p>") ∨
       (truthy expl = false ∧ ex = [])) := by
  unfold explanationPart at h
  split at h
  · cases h
  · next expl he =>
    refine ⟨expl, he, ?_⟩
    split_ifs at h with ht
    · left
      refine ⟨ht, ?_⟩
      split at h
      · cases h
      · next cut hc =>
        split at h
        · cases h
        · next text hx =>
          injection h with h
          exact ⟨cut, text, hc, hx, h.symm⟩
    · right
      injection h with h
      exact ⟨by simpa using ht, h.symm⟩

theorem renderMarkup_ok {data : JsVal} {html : JsString}
    (h : renderMarkup data = .ok html) :
    ∃ hd md ex, headingPart data = .ok hd ∧ mediaPart data = .ok md ∧
      explanationPart data = .ok ex ∧ html = hd ++ md ++ ex := by
  unfold renderMarkup at h
  split at h
  · cases h
  · next hd hh =>
    split at h
    · cases h
    · next md hm =>
      split at h
      · cases h
      · next ex he =>
        injection h with h
        exact ⟨hd, md, ex, hh, hm, he, h.symm⟩

theorem proxyTier_ok {env : Env} {url : String} {html : JsString} (label : String)
    (h : SourceOk env url html) :
    proxyTier env url label = (.returned, [.fetch url, .setInnerHTML html]) := by
  obtain ⟨res, data, hf, hok, hb, hr⟩ := h
  simp [proxyTier, proxyAttempt, renderApod, hf, hok, hb, hr]

theorem proxyTier_fails {env : Env} {url : String} (label : String)
    (h : SourceFails env url) :
    proxyTier env url label = (.fellThrough, .fetch url :: debugLog env url label) := by
  rcases h with ⟨e, hf⟩ | ⟨res, hf, hok⟩ | ⟨res, e, hf, hok, hb⟩ | ⟨res, data, e, hf, hok, hb, hr⟩
  · simp [proxyTier, proxyAttempt, debugLog, hf]
  · simp [proxyTier, proxyAttempt, debugLog, hf, hok]
  · simp [proxyTier, proxyAttempt, debugLog, hf, hok, hb]
  · simp [proxyTier, proxyAttempt, debugLog, renderApod, hf, hok, hb, hr]

theorem keyAttempt_ok {env : Env} {html : JsString} (h : SourceOk env (keyUrl env) html) :
    keyAttempt env = (.ok (), [.fetch (keyUrl env), .setInnerHTML html]) := by
  obtain ⟨res, data, hf, hok, hb, hr⟩ := h
  simp [keyAttempt, renderApod, hf, hok, hb, hr]

theorem keyAttempt_fails {env : Env} (h : SourceFails env (keyUrl env)) :
    ∃ e, keyAttempt env = (.error e, [.fetch (keyUrl env)]) := by
  rcases h with ⟨e, hf⟩ | ⟨res, hf, hok⟩ | ⟨res, e, hf, hok, hb⟩ | ⟨res, data, e, hf, hok, hb, hr⟩
  · exact ⟨e, by simp [keyAttempt, hf]⟩
  · exact ⟨_, by simp [keyAttempt, hf, hok]; rfl⟩
  · exact ⟨e, by simp [keyAttempt, hf, hok, hb]⟩
  · exact ⟨e, by simp [keyAttempt, renderApod, hf, hok, hb, hr]⟩

theorem source_ok_or_fails (env : Env) (url : String) :
    (∃ html, SourceOk env url html) ∨ SourceFails env url := by
  unfold SourceOk SourceFails
  cases hf : env.fetch url with
  | error e => exact Or.inr (Or.inl ⟨e, rfl⟩)
  | ok res =>
    cases hok : res.ok with
    | false => exact Or.inr (Or.inr (Or.inl ⟨res, rfl, hok⟩))
    | true =>
      cases hb : res.body with
      | error e => exact Or.inr (Or.inr (Or.inr (Or.inl ⟨res, e, rfl, hok, hb⟩)))
      | ok data =>
        cases hr : renderMarkup data with
        | error e => exact Or.inr (Or.inr (Or.inr (Or.inr ⟨res, data, e, rfl, hok, hb, hr⟩)))
        | ok html => exact Or.inl ⟨html, res, data, rfl, hok, hb, hr⟩

theorem requests_append (a b : List Event) : requests (a ++ b) = requests a ++ requests b := by
  simp [requests, List.filterMap_append]

theorem writes_append (a b : List Event) : writes (a ++ b) = writes a ++ writes b := by
  simp [writes, List.filterMap_append]

theorem requests_nil : requests [] = [] := rfl

theorem requests_fetch (u : String) (l : List Event) :
    requests (.fetch u :: l) = u :: requests l := rfl

theorem requests_setInnerHTML (h : JsString) (l : List Event) :
    requests (.setInnerHTML h :: l) = requests l := rfl

theorem requests_warn (s : String) (e : JsError) (l : List Event) :
    requests (.warn s e :: l) = requests l := rfl

theorem writes_nil : writes [] = [] := rfl

theorem writes_fetch (u : String) (l : List Event) :
    writes (.fetch u :: l) = writes l := rfl

theorem writes_setInnerHTML (h : JsString) (l : List Event) :
    writes (.setInnerHTML h :: l) = h :: writes l := rfl

theorem writes_warn (s : String) (e : JsError) (l : List Event) :
    writes (.warn s e :: l) = writes l := rfl

theorem debugLog_quiet (env : Env) (url label : String) :
    requests (debugLog env url label) = [] ∧ writes (debugLog env url label) = [] := by
  unfold debugLog
  split
  · simp [requests, writes]
  · split_ifs
    · split
      · simp [requests, writes]
      · split <;> simp [requests, writes]
    · simp [requests, writes]

theorem sourceMarkup_of_ok {env : Env} {url : String} {html : JsString} (h : SourceOk env url html) :
    sourceMarkup env url = some html := by
  obtain ⟨res, data, hf, hok, hb, hr⟩ := h
  simp [sourceMarkup, hf, hok, hb, hr]

theorem sourceMarkup_of_fails {env : Env} {url : String} (h : SourceFails env url) :
    sourceMarkup env url = none := by
  rcases h with ⟨e, hf⟩ | ⟨res, hf, hok⟩ | ⟨res, e, hf, hok, hb⟩ | ⟨res, data, e, hf, hok, hb, hr⟩
  · simp [sourceMarkup, hf]
  · simp [sourceMarkup, hf, hok]
  · simp [sourceMarkup, hf, hok, hb]
  · simp [sourceMarkup, hf, hok, hb, hr]

theorem string_ne_empty {k : String} (h : k ≠ "") : k.data.isEmpty = false := by
  cases k with
  | mk l =>
    cases l with
    | nil => exact absurd rfl h
    | cons c cs => rfl

/-- Events of a run in which the first tier fails and the second succeeds. -/
theorem initAPOD_second {env : Env} {html : JsString} (harea : env.area = true)
    (h1 : SourceFails env "/.netlify/functions/apod") (h2 : SourceOk env "/api/apod" html) :
    initAPOD env = (.ok (),
      .fetch "/.netlify/functions/apod" ::
        debugLog env "/.netlify/functions/apod" "Netlify function not available" ++
      [.fetch "/api/apod", .setInnerHTML html]) := by
  simp [initAPOD, chain, harea, proxyTier_fails _ h1, proxyTier_ok _ h2]

/-- Events of a run in which both proxy tiers fail and the key request succeeds. -/
theorem initAPOD_third {env : Env} {html : JsString} (harea : env.area = true)
    (h1 : SourceFails env "/.netlify/functions/apod") (h2 : SourceFails env "/api/apod")
    (h3 : SourceOk env (keyUrl env) html) :
    initAPOD env = (.ok (),
      .fetch "/.netlify/functions/apod" ::
        debugLog env "/.netlify/functions/apod" "Netlify function not available" ++
      .fetch "/api/apod" :: debugLog env "/api/apod" "Local API proxy not available" ++
      [.fetch (keyUrl env), .setInnerHTML html]) := by
  simp [initAPOD, chain, harea, proxyTier_fails _ h1, proxyTier_fails _ h2, keyAttempt_ok h3]

/-- Events of a run in which every source fails. -/
theorem initAPOD_none {env : Env} (harea : env.area = true)
    (h1 : SourceFails env "/.netlify/functions/apod") (h2 : SourceFails env "/api/apod")
    (h3 : SourceFails env (keyUrl env)) :
    ∃ e, initAPOD env = (.ok (),
      .fetch "/.netlify/functions/apod" ::
        debugLog env "/.netlify/functions/apod" "Netlify function not available" ++
      .fetch "/api/apod" :: debugLog env "/api/apod" "Local API proxy not available" ++
      [.fetch (keyUrl env), .setInnerHTML errorPlaceholder,
        .warn "APOD initialization error:" e]) := by
  obtain ⟨e, he⟩ := keyAttempt_fails h3
  exact ⟨e, by simp [initAPOD, chain, harea, proxyTier_fails _ h1, proxyTier_fails _ h2, he]⟩

theorem initAPOD_completes (env : Env) : (initAPOD env).1 = .ok () := by
  unfold initAPOD
  split_ifs
  · rfl
  · split <;> rfl

/-- Events of a run in which the first tier succeeds. -/
theorem initAPOD_first {env : Env} {html : JsString} (harea : env.area = true)
    (h1 : SourceOk env "/.netlify/functions/apod" html) :
    initAPOD env = (.ok (), [.fetch "/.netlify/functions/apod", .setInnerHTML html]) := by
  simp [initAPOD, chain, harea, proxyTier_ok _ h1]

theorem apiKey_of_client {env : Env} {k : String} (hk : k ≠ "")
    (h : jsOr env.NASA_API_KEY env.CLIENT_NASA_API_KEY = some k) : apiKey env = k := by
  have hk2 := string_ne_empty hk
  simp only [apiKey, clientKey, h]
  simp [jsOr, truthyKey, hk2]

theorem apiKey_of_no_client {env : Env} (h1 : truthyKey env.NASA_API_KEY = false)
    (h2 : truthyKey env.CLIENT_NASA_API_KEY = false) :
    apiKey env = match env.metaContent with
      | none => "hdjf"
      | some k => if k.data.isEmpty then "hdjf" else k := by
  have hj : truthyKey (jsOr env.NASA_API_KEY env.CLIENT_NASA_API_KEY) = false := by
    simp [jsOr, h1, h2]
  simp only [apiKey, clientKey, hj]
  simp [jsOr, truthyKey]

theorem shape_append {a b : JsString} {la lb aa ab : JsString}
    (ha : TagShape a la aa) (hb : TagShape b lb ab) : TagShape (a ++ b) (la ++ lb) (aa ++ ab) := by
  obtain ⟨ha1, ha2, ha3⟩ := ha
  obtain ⟨hb1, hb2, hb3⟩ := hb
  refine ⟨?_, ?_, ?_⟩
  · rw [tagLettersFrom_append, ha1, ha2, hb1]
  · rw [ltState_append, ha2, hb2]
  · unfold angles at *
    rw [List.filter_append, ha3, hb3]

theorem shape_cast {s la lb aa ab : JsString} (h : TagShape s la aa) (e1 : la = lb)
    (e2 : aa = ab) : TagShape s lb ab := by
  subst e1 e2
  exact h

theorem shape_escaped (t : JsString) : TagShape (escapeText t) [] [] := by
  refine ⟨tagLettersFrom_of_no_lt _ (escapeText_no_lt t), ltState_of_no_lt _ (escapeText_no_lt t), ?_⟩
  unfold angles
  rw [List.filter_eq_nil_iff]
  intro c hc
  have h1 : c ≠ '<'.toNat := fun e => escapeText_no_lt t (e ▸ hc)
  have h2 : c ≠ '>'.toNat := fun e => escapeText_no_gt t (e ▸ hc)
  rw [beq_false_of_ne h1, beq_false_of_ne h2]
  decide

theorem shape_of_escapeHtml {v : JsVal} {out : JsString} (h : escapeHtml v = .ok out) :
    TagShape out [] [] := by
  obtain ⟨t, -, rfl⟩ := escapeHtml_ok h
  exact shape_escaped t

theorem headingPart_shape {data : JsVal} {hd : JsString} (h : headingPart data = .ok hd) :
    TagShape hd (js "h/") (js "<><>") := by
  obtain ⟨title, shown, -, hs, rfl⟩ := headingPart_ok h
  have l1 : TagShape (js "<h4>") (js "h") (js "<>") := ⟨rfl, rfl, rfl⟩
  have l2 : TagShape (js "</h4>") (js "/") (js "<>") := ⟨rfl, rfl, rfl⟩
  exact shape_cast (shape_append (shape_append l1 (shape_of_escapeHtml hs)) l2)
    (by decide) (by decide)

theorem mediaPart_shape {data : JsVal} {md : JsString} {mt : JsVal}
    (h : mediaPart data = .ok md) (hmt : getProp data "media_type" = .ok mt) :
    TagShape md (mediaLetters mt) (mediaBrackets mt) := by
  obtain ⟨mt2, hmt2, hcase⟩ := mediaPart_ok h
  rw [hmt] at hmt2
  injection hmt2 with hmt2
  subst hmt2
  rcases hcase with ⟨rfl, url, src, title, alt, -, hs, -, ha, rfl⟩ |
    ⟨rfl, url, href, -, hs, rfl⟩ | ⟨hi, hv, rfl⟩
  · have l1 : TagShape (js "<img src=\"") (js "i") (js "<") := ⟨rfl, rfl, rfl⟩
    have l2 : TagShape (js "\" alt=\"") [] [] := ⟨rfl, rfl, rfl⟩
    have l3 : TagShape (js "\">") [] (js ">") := ⟨rfl, rfl, rfl⟩
    have e1 : strictEqStr (.str (js "image")) "image" = true := by decide
    simp only [mediaLetters, mediaBrackets, e1, if_true]
    exact shape_cast (shape_append (shape_append (shape_append (shape_append l1
      (shape_of_escapeHtml hs)) l2) (shape_of_escapeHtml ha)) l3) (by decide) (by decide)
  · have l1 : TagShape (js "<a href=\"") (js "a") (js "<") := ⟨rfl, rfl, rfl⟩
    have l2 : TagShape (js "\" target=\"_blank\" rel=\"noopener\">View video</a>") (js "/")
        (js "><>") := ⟨rfl, rfl, rfl⟩
    have e1 : strictEqStr (.str (js "video")) "image" = false := by decide
    have e2 : strictEqStr (.str (js "video")) "video" = true := by decide
    simp only [mediaLetters, mediaBrackets, e1, e2, if_true]
    exact shape_cast (shape_append (shape_append l1 (shape_of_escapeHtml hs)) l2)
      (by decide) (by decide)
  · have e1 : strictEqStr mt "image" = false := by
      cases hb : strictEqStr mt "image" with
      | false => rfl
      | true => exact absurd ((strictEqStr_iff _ _).1 hb) hi
    have e2 : strictEqStr mt "video" = false := by
      cases hb : strictEqStr mt "video" with
      | false => rfl
      | true => exact absurd ((strictEqStr_iff _ _).1 hb) hv
    simp only [mediaLetters, mediaBrackets, e1, e2]
    exact ⟨rfl, rfl, rfl⟩

theorem explanationPart_shape {data : JsVal} {ex : JsString} {expl : JsVal}
    (h : explanationPart data = .ok ex) (he : getProp data "explanation" = .ok expl) :
    TagShape ex (paragraphLetters expl) (paragraphBrackets expl) := by
  obtain ⟨expl2, he2, hcase⟩ := explanationPart_ok h
  rw [he] at he2
  injection he2 with he2
  subst he2
  rcases hcase with ⟨ht, cut, text, -, hx, rfl⟩ | ⟨ht, rfl⟩
  · have l1 : TagShape (js "<p class=\"muted\">") (js "p") (js "<>") := ⟨rfl, rfl, rfl⟩
    have l2 : TagShape (js "...</p>") (js "/") (js "<>") := ⟨rfl, rfl, rfl⟩
    simp only [paragraphLetters, paragraphBrackets, ht, if_true]
    exact shape_cast (shape_append (shape_append l1 (shape_of_escapeHtml hx)) l2)
      (by decide) (by decide)
  · simp only [paragraphLetters, paragraphBrackets, ht]
    exact ⟨rfl, rfl, rfl⟩

theorem getProp_total {data : JsVal} {key : String} {v : JsVal} (h : getProp data key = .ok v)
    (key2 : String) : ∃ v2, getProp data key2 = .ok v2 := by
  cases data <;> simp [getProp] at h ⊢

/-- Shape of a whole markup: heading, media element, explanation paragraph. -/
theorem renderMarkup_shape {data : JsVal} {html : JsString} {mt expl : JsVal}
    (h : renderMarkup data = .ok html) (hmt : getProp data "media_type" = .ok mt)
    (he : getProp data "explanation" = .ok expl) :
    TagShape html (js "h/" ++ mediaLetters mt ++ paragraphLetters expl)
      (js "<><>" ++ mediaBrackets mt ++ paragraphBrackets expl) := by
  obtain ⟨hd, md, ex, hh, hm, hx, rfl⟩ := renderMarkup_ok h
  exact shape_append (shape_append (headingPart_shape hh) (mediaPart_shape hm hmt))
    (explanationPart_shape hx he)

theorem containsText_of_eq {needle hay : JsString} (pre post : JsString)
    (h : hay = pre ++ needle ++ post) : containsText needle hay :=
  ⟨pre, post, h.symm⟩

theorem mem_tagLetters_of_contains {needle html : JsString} (c : CodeUnit) (w : JsString)
    (hn : needle = '<'.toNat :: c :: w) (h : containsText needle html) :
    c ∈ tagLetters html := by
  unfold containsText at h
  rw [hn] at h
  exact mem_tagLettersFrom_of_infix c w html false h

theorem strictEqStr_false_of_ne {mt : JsVal} {lit : String} (h : mt ≠ .str (js lit)) :
    strictEqStr mt lit = false := by
  cases hb : strictEqStr mt lit with
  | false => rfl
  | true => exact absurd ((strictEqStr_iff _ _).1 hb) h

/-- The media element in the markup, spelled out for the three cases. -/
theorem renderMarkup_media {data : JsVal} {html : JsString} {mt url : JsVal}
    (h : renderMarkup data = .ok html) (hmt : getProp data "media_type" = .ok mt)
    (hurl : getProp data "url" = .ok url) :
    ∃ hd ex, headingPart data = .ok hd ∧ explanationPart data = .ok ex ∧
      ((mt = .str (js "image") ∧ ∃ src title alt, escapeHtml url = .ok src ∧
          getProp data "title" = .ok title ∧ escapeHtml title = .ok alt ∧
          html = hd ++ (js "<img src=\"" ++ src ++ js "\" alt=\"" ++ alt ++ js "\">") ++ ex) ∨
       (mt = .str (js "video") ∧ ∃ href, escapeHtml url = .ok href ∧
          html = hd ++ (js "<a href=\"" ++ href ++
            js "\" target=\"_blank\" rel=\"noopener\">View video</a>") ++ ex) ∨
       (mt ≠ .str (js "image") ∧ mt ≠ .str (js "video") ∧ html = hd ++ ex)) := by
  obtain ⟨hd, md, ex, hh, hm, hx, rfl⟩ := renderMarkup_ok h
  obtain ⟨mt2, hmt2, hcase⟩ := mediaPart_ok hm
  rw [hmt] at hmt2
  injection hmt2 with hmt2
  subst hmt2
  refine ⟨hd, ex, hh, hx, ?_⟩
  rcases hcase with ⟨rfl, url2, src, title, alt, hu, hs, ht, ha, rfl⟩ |
    ⟨rfl, url2, href, hu, hs, rfl⟩ | ⟨hi, hv, rfl⟩
  · rw [hurl] at hu
    injection hu with hu
    subst hu
    exact Or.inl ⟨rfl, src, title, alt, hs, ht, ha, rfl⟩
  · rw [hurl] at hu
    injection hu with hu
    subst hu
    exact Or.inr (Or.inl ⟨rfl, href, hs, rfl⟩)
  · exact Or.inr (Or.inr ⟨hi, hv, by rw [List.append_nil]⟩)

theorem mem_mediaLetters_i {mt : JsVal} (h : 'i'.toNat ∈ mediaLetters mt) :
    mt = .str (js "image") := by
  by_cases hi : strictEqStr mt "image" = true
  · exact (strictEqStr_iff _ _).1 hi
  · by_cases hv : strictEqStr mt "video" = true
    · rw [mediaLetters, if_neg hi, if_pos hv] at h
      exact absurd h (by decide)
    · rw [mediaLetters, if_neg hi, if_neg hv] at h
      exact absurd h (by decide)

theorem mem_mediaLetters_a {mt : JsVal} (h : 'a'.toNat ∈ mediaLetters mt) :
    mt = .str (js "video") := by
  by_cases hi : strictEqStr mt "image" = true
  · rw [mediaLetters, if_pos hi] at h
    exact absurd h (by decide)
  · by_cases hv : strictEqStr mt "video" = true
    · exact (strictEqStr_iff _ _).1 hv
    · rw [mediaLetters, if_neg hi, if_neg hv] at h
      exact absurd h (by decide)

theorem not_mem_mediaLetters_p (mt : JsVal) : 'p'.toNat ∉ mediaLetters mt := by
  by_cases hi : strictEqStr mt "image" = true
  · rw [mediaLetters, if_pos hi]; decide
  · by_cases hv : strictEqStr mt "video" = true
    · rw [mediaLetters, if_neg hi, if_pos hv]; decide
    · rw [mediaLetters, if_neg hi, if_neg hv]; decide

theorem mem_paragraphLetters {expl : JsVal} {c : CodeUnit} (h : c ∈ paragraphLetters expl) :
    c = 'p'.toNat ∨ c = '/'.toNat := by
  by_cases ht : truthy expl = true
  · rw [paragraphLetters, if_pos ht] at h
    have h2 : c ∈ ['p'.toNat, '/'.toNat] := h
    simpa using h2
  · rw [paragraphLetters, if_neg ht] at h
    cases h

theorem image_ne_video : JsVal.str (js "image") ≠ JsVal.str (js "video") :=
  fun h => absurd (JsVal.str.inj h) (by decide)

theorem hasDots3From_cons (n : Nat) (c : CodeUnit) (cs : JsString) :
    hasDots3From n (c :: cs) =
      if c = '.'.toNat then decide (3 ≤ n + 1) || hasDots3From (n + 1) cs
      else hasDots3From 0 cs := rfl

theorem dotRun_cons (n : Nat) (c : CodeUnit) (cs : JsString) :
    dotRun n (c :: cs) = dotRun (if c = '.'.toNat then n + 1 else 0) cs := rfl

theorem dotRun_append (n : Nat) (a b : JsString) :
    dotRun n (a ++ b) = dotRun (dotRun n a) b := by
  simp only [dotRun, List.foldl_append]

theorem hasDots3From_append (n : Nat) (a b : JsString) :
    hasDots3From n (a ++ b) = (hasDots3From n a || hasDots3From (dotRun n a) b) := by
  induction a generalizing n with
  | nil => rfl
  | cons c cs ih =>
    rw [List.cons_append, hasDots3From_cons, hasDots3From_cons, dotRun_cons, ih, ih]
    by_cases h : c = '.'.toNat
    · rw [if_pos h, if_pos h, if_pos h, Bool.or_assoc]
    · rw [if_neg h, if_neg h, if_neg h]

theorem hasDots3From_of_contains {l : JsString} (h : containsText (js "...") l) (n : Nat) :
    hasDots3From n l = true := by
  obtain ⟨pre, post, e⟩ := h
  subst e
  rw [List.append_assoc, hasDots3From_append]
  have key : ∀ k, hasDots3From k (js "..." ++ post) = true := by
    intro k
    have e3 : js "..." ++ post = '.'.toNat :: '.'.toNat :: '.'.toNat :: post := rfl
    rw [e3, hasDots3From_cons, if_pos rfl, hasDots3From_cons, if_pos rfl, hasDots3From_cons,
      if_pos rfl]
    have h3 : decide (3 ≤ k + 1 + 1 + 1) = true := decide_eq_true (by omega)
    rw [h3]
    simp
  rw [key]
  simp

theorem contains_of_hasDots3From (l : JsString) :
    ∀ n, hasDots3From n l = true →
      containsText (js "...") (List.replicate n '.'.toNat ++ l) := by
  induction l with
  | nil => intro n h; cases h
  | cons c cs ih =>
    intro n h
    rw [hasDots3From_cons] at h
    by_cases hc : c = '.'.toNat
    · subst hc
      rw [if_pos rfl, Bool.or_eq_true] at h
      have e : List.replicate n '.'.toNat ++ '.'.toNat :: cs =
          List.replicate (n + 1) '.'.toNat ++ cs := by
        rw [List.replicate_succ', List.append_assoc]
        rfl
      rw [e]
      rcases h with h | h
      · have hn : 3 ≤ n + 1 := of_decide_eq_true h
        obtain ⟨m, hm⟩ : ∃ m, n + 1 = 3 + m := ⟨n + 1 - 3, by omega⟩
        rw [hm, List.replicate_add]
        exact ⟨[], List.replicate m '.'.toNat ++ cs, by simp [List.append_assoc]; rfl⟩
      · exact ih (n + 1) h
    · rw [if_neg hc] at h
      obtain ⟨pre, post, e⟩ := ih 0 h
      refine ⟨List.replicate n '.'.toNat ++ c :: pre, post, ?_⟩
      rw [List.replicate_zero, List.nil_append] at e
      rw [← e]
      simp [List.append_assoc]

theorem escChar_dots (c : CodeUnit) (n : Nat) (rest : JsString) :
    hasDots3From n (escChar c ++ rest) = hasDots3From n (c :: rest) := by
  unfold escChar
  split_ifs with h1 h2 h3
  · subst h1; rfl
  · subst h2; rfl
  · subst h3; rfl
  · rfl

theorem flatMap_escChar_dots (l : JsString) :
    ∀ n, hasDots3From n (l.flatMap escChar) = hasDots3From n l := by
  induction l with
  | nil => intro n; rfl
  | cons c cs ih =>
    intro n
    rw [List.flatMap_cons, escChar_dots, hasDots3From_cons, hasDots3From_cons, ih, ih]

theorem escapeText_dots (t : JsString) : hasDots3From 0 (escapeText t) = hasDots3From 0 t := by
  rw [escapeText_eq]
  exact flatMap_escChar_dots t 0

theorem sealed_of_no_dot (c : CodeUnit) (cs : JsString) (h : '.'.toNat ∉ c :: cs) :
    Sealed (c :: cs) false := by
  induction cs generalizing c with
  | nil =>
    intro n
    have hc : c ≠ '.'.toNat := fun e => h (by simp [e])
    rw [hasDots3From_cons, dotRun_cons, if_neg hc, if_neg hc]
    exact ⟨rfl, rfl⟩
  | cons d ds ih =>
    intro n
    have hc : c ≠ '.'.toNat := fun e => h (by simp [e])
    have hd : '.'.toNat ∉ d :: ds := fun hm => h (List.mem_cons_of_mem _ hm)
    rw [hasDots3From_cons, dotRun_cons, if_neg hc, if_neg hc]
    exact ih d hd 0

theorem sealed_wrap {a b : JsString} {da db : Bool} (ha : Sealed a da) (hb : Sealed b db)
    (t : JsString) : Sealed (a ++ t ++ b) (da || hasDots3From 0 t || db) := by
  intro n
  refine ⟨?_, ?_⟩
  · rw [hasDots3From_append, hasDots3From_append, (ha n).1, (ha n).2, (hb _).1]
  · rw [dotRun_append, (hb _).2]

theorem sealed_append {a b : JsString} {da db : Bool} (ha : Sealed a da) (hb : Sealed b db) :
    Sealed (a ++ b) (da || db) := by
  intro n
  refine ⟨?_, ?_⟩
  · rw [hasDots3From_append, (ha n).1, (hb _).1]
  · rw [dotRun_append, (hb _).2]

theorem dots_of_escapeHtml {v : JsVal} {out : JsString} (h : escapeHtml v = .ok out)
    (hd : hasDots3From 0 out = true) :
    ∃ t, toStr v = .ok t ∧ containsText (js "...") t := by
  obtain ⟨t, ht, rfl⟩ := escapeHtml_ok h
  rw [escapeText_dots] at hd
  exact ⟨t, ht, by simpa using contains_of_hasDots3From t 0 hd⟩

theorem sealed_lit (s : JsString) (hne : s ≠ []) (h : '.'.toNat ∉ s) : Sealed s false := by
  cases s with
  | nil => exact absurd rfl hne
  | cons c cs => exact sealed_of_no_dot c cs h

/-- Three dots in the markup of a record without explanation paragraph come
from one of the interpolated field texts. -/
theorem markup_dots_source {data : JsVal} {html : JsString} {title url expl : JsVal}
    (h : renderMarkup data = .ok html) (ht : getProp data "title" = .ok title)
    (hu : getProp data "url" = .ok url) (he : getProp data "explanation" = .ok expl)
    (hf : truthy expl = false) (hc : containsText (js "...") html) :
    ∃ v t, (v = (if truthy title then title else .str (js "NASA APOD")) ∨ v = url ∨ v = title) ∧
      toStr v = .ok t ∧ containsText (js "...") t := by
  obtain ⟨hd, md, ex, hh, hm, hx, rfl⟩ := renderMarkup_ok h
  obtain ⟨title2, shown, ht2, hs, rfl⟩ := headingPart_ok hh
  rw [ht] at ht2
  injection ht2 with ht2
  subst ht2
  obtain ⟨expl2, he2, hxcase⟩ := explanationPart_ok hx
  rw [he] at he2
  injection he2 with he2
  subst he2
  have hex : ex = [] := by
    rcases hxcase with ⟨htr, -⟩ | ⟨-, e⟩
    · rw [hf] at htr; cases htr
    · exact e
  subst hex
  rw [List.append_nil] at hc
  have hdots := hasDots3From_of_contains hc 0
  have sh : Sealed (js "<h4>" ++ shown ++ js "</h4>") (false || hasDots3From 0 shown || false) :=
    sealed_wrap (sealed_lit _ (by decide) (by decide)) (sealed_lit _ (by decide) (by decide)) shown
  obtain ⟨mt, -, hmcase⟩ := mediaPart_ok hm
  rcases hmcase with ⟨-, url2, src, title3, alt, hu2, hsrc, ht3, halt, rfl⟩ |
    ⟨-, url2, href, hu2, hhref, rfl⟩ | ⟨-, -, rfl⟩
  · rw [hu] at hu2
    injection hu2 with hu2
    subst hu2
    rw [ht] at ht3
    injection ht3 with ht3
    subst ht3
    have sm := sealed_wrap (sealed_wrap (sealed_lit (js "<img src=\"") (by decide) (by decide))
      (sealed_lit (js "\" alt=\"") (by decide) (by decide)) src)
      (sealed_lit (js "\">") (by decide) (by decide)) alt
    have hall := ((sealed_append sh sm) 0).1
    rw [hdots] at hall
    simp only [Bool.false_or, Bool.or_false] at hall
    rcases Bool.or_eq_true_iff.1 hall.symm with h1 | h2
    · obtain ⟨t, e1, e2⟩ := dots_of_escapeHtml hs h1
      exact ⟨_, t, Or.inl rfl, e1, e2⟩
    · rcases Bool.or_eq_true_iff.1 h2 with h3 | h4
      · obtain ⟨t, e1, e2⟩ := dots_of_escapeHtml hsrc h3
        exact ⟨_, t, Or.inr (Or.inl rfl), e1, e2⟩
      · obtain ⟨t, e1, e2⟩ := dots_of_escapeHtml halt h4
        exact ⟨_, t, Or.inr (Or.inr rfl), e1, e2⟩
  · rw [hu] at hu2
    injection hu2 with hu2
    subst hu2
    have sm := sealed_wrap (sealed_lit (js "<a href=\"") (by decide) (by decide))
      (sealed_lit (js "\" target=\"_blank\" rel=\"noopener\">View video</a>")
        (by decide) (by decide)) href
    have hall := ((sealed_append sh sm) 0).1
    rw [hdots] at hall
    simp only [Bool.false_or, Bool.or_false] at hall
    rcases Bool.or_eq_true_iff.1 hall.symm with h1 | h2
    · obtain ⟨t, e1, e2⟩ := dots_of_escapeHtml hs h1
      exact ⟨_, t, Or.inl rfl, e1, e2⟩
    · obtain ⟨t, e1, e2⟩ := dots_of_escapeHtml hhref h2
      exact ⟨_, t, Or.inr (Or.inl rfl), e1, e2⟩
  · rw [List.append_nil] at hdots
    have hall := (sh 0).1
    rw [hdots] at hall
    simp only [Bool.false_or, Bool.or_false] at hall
    obtain ⟨t, e1, e2⟩ := dots_of_escapeHtml hs hall.symm
    exact ⟨_, t, Or.inl rfl, e1, e2⟩

/-! ## The claims -/

/-- C1: when the target area exists and the first request, to
`/.netlify/functions/apod`, resolves with an ok response whose body parses to a
record that renders as `html`, the run paints exactly `html` and ends there.
Its complete list of effects is that one request and that one assignment, so
neither `/api/apod` nor the key-based request is issued, whatever the other
sources of the environment would answer, and nothing is thrown. -/
theorem c1_first_tier_short_circuits (env : Env) (res : Response) (data : JsVal)
    (html : JsString) (harea : env.area = true)
    (hfetch : env.fetch "/.netlify/functions/apod" = .ok res)
    (hok : res.ok = true) (hbody : res.body = .ok data)
    (hrender : renderMarkup data = .ok html) :
    initAPOD env = (.ok (), [.fetch "/.netlify/functions/apod", .setInnerHTML html]) :=
  initAPOD_first harea ⟨res, data, hfetch, hok, hbody, hrender⟩

/-- C1 at an environment whose managed proxy delivers the sample image record. -/
theorem c1_first_tier_short_circuits_witness :
    initAPOD (envOnly "/.netlify/functions/apod" sampleImage) =
      (.ok (), [.fetch "/.netlify/functions/apod",
        .setInnerHTML (js "<h4>X</h4><img src=\"http://a/b.png\" alt=\"X\">")]) :=
  c1_first_tier_short_circuits (envOnly "/.netlify/functions/apod" sampleImage)
    ⟨200, .ok sampleImage⟩ sampleImage _ rfl rfl rfl rfl rfl

/-- C2: a failure of a proxy tier (the fetch rejects, the status is not 2xx,
the body of a 2xx response does not parse, or the parsed value does not render)
is not propagated.  The run never throws.  When tier 1 fails, the next effect
after its request and the debug line of its `catch` is the request to
`/api/apod`; when that tier succeeds its record is painted and no placeholder
is.  When tier 2 fails as well, the next request is the key-based one, and when
that one succeeds its record is painted and no placeholder is.  The debug lines
contain no request and no assignment to the area. -/
theorem c2_proxy_failure_advances (env : Env) (harea : env.area = true)
    (h1 : SourceFails env "/.netlify/functions/apod") :
    (initAPOD env).1 = .ok () ∧
    (∃ rest, (initAPOD env).2 =
      .fetch "/.netlify/functions/apod" ::
        debugLog env "/.netlify/functions/apod" "Netlify function not available" ++
      .fetch "/api/apod" :: rest) ∧
    (∀ html, SourceOk env "/api/apod" html → (initAPOD env).2 =
      .fetch "/.netlify/functions/apod" ::
        debugLog env "/.netlify/functions/apod" "Netlify function not available" ++
      [.fetch "/api/apod", .setInnerHTML html]) ∧
    (SourceFails env "/api/apod" →
      (∃ rest, (initAPOD env).2 =
        .fetch "/.netlify/functions/apod" ::
          debugLog env "/.netlify/functions/apod" "Netlify function not available" ++
        .fetch "/api/apod" :: debugLog env "/api/apod" "Local API proxy not available" ++
        .fetch (keyUrl env) :: rest) ∧
      (∀ html, SourceOk env (keyUrl env) html → (initAPOD env).2 =
        .fetch "/.netlify/functions/apod" ::
          debugLog env "/.netlify/functions/apod" "Netlify function not available" ++
        .fetch "/api/apod" :: debugLog env "/api/apod" "Local API proxy not available" ++
        [.fetch (keyUrl env), .setInnerHTML html])) ∧
    (∀ url label, requests (debugLog env url label) = [] ∧
      writes (debugLog env url label) = []) := by
  have key : SourceFails env "/api/apod" →
      (∃ rest, (initAPOD env).2 =
        .fetch "/.netlify/functions/apod" ::
          debugLog env "/.netlify/functions/apod" "Netlify function not available" ++
        .fetch "/api/apod" :: debugLog env "/api/apod" "Local API proxy not available" ++
        .fetch (keyUrl env) :: rest) := by
    intro h2
    rcases source_ok_or_fails env (keyUrl env) with ⟨html, h3⟩ | h3
    · exact ⟨_, by rw [initAPOD_third harea h1 h2 h3]⟩
    · obtain ⟨e, he⟩ := initAPOD_none harea h1 h2 h3
      exact ⟨_, by rw [he]⟩
  refine ⟨initAPOD_completes env, ?_, ?_, ?_, fun url label => debugLog_quiet env url label⟩
  · rcases source_ok_or_fails env "/api/apod" with ⟨html, h2⟩ | h2
    · exact ⟨_, by rw [initAPOD_second harea h1 h2]⟩
    · obtain ⟨rest, hr⟩ := key h2
      exact ⟨debugLog env "/api/apod" "Local API proxy not available" ++
        .fetch (keyUrl env) :: rest, by rw [hr]; simp⟩
  · intro html h2
    rw [initAPOD_second harea h1 h2]
  · intro h2
    exact ⟨key h2, fun html h3 => by rw [initAPOD_third harea h1 h2 h3]⟩

/-- C2 at an environment whose managed proxy is unreachable and whose local
proxy delivers the sample image record. -/
theorem c2_proxy_failure_advances_witness :
    SourceFails (envOnly "/api/apod" sampleImage) "/.netlify/functions/apod" ∧
    (initAPOD (envOnly "/api/apod" sampleImage)).2 =
      [.fetch "/.netlify/functions/apod",
       .debug "Netlify function not available" (.rejected "Failed to fetch"),
       .fetch "/api/apod",
       .setInnerHTML (js "<h4>X</h4><img src=\"http://a/b.png\" alt=\"X\">")] :=
  ⟨Or.inl ⟨_, rfl⟩,
   (c2_proxy_failure_advances (envOnly "/api/apod" sampleImage) rfl (Or.inl ⟨_, rfl⟩)).2.2.1
     _ ⟨⟨200, .ok sampleImage⟩, sampleImage, rfl, rfl, rfl, rfl⟩⟩

/-- C3: when tiers 1 and 2 have both failed, the requests of the run are, in
order, the two proxy requests and exactly one key-based request, to
`https://api.nasa.gov/planetary/apod?api_key=` followed by
`encodeURIComponent` of the selected key, whether or not that request succeeds
(no second key is tried).  The selected key is the first non-empty one of
`window.NASA_API_KEY` and `window.CLIENT_NASA_API_KEY` (the page globals),
else the non-empty content of the `nasa-api-key` meta tag, else the literal
`hdjf`. -/
theorem c3_single_key_request (env : Env) (harea : env.area = true)
    (h1 : SourceFails env "/.netlify/functions/apod") (h2 : SourceFails env "/api/apod") :
    requests (initAPOD env).2 =
      ["/.netlify/functions/apod", "/api/apod",
       "https://api.nasa.gov/planetary/apod?api_key=" ++ encodeURIComponent (apiKey env)] ∧
    (∀ k, env.NASA_API_KEY = some k → k ≠ "" → apiKey env = k) ∧
    (∀ k, truthyKey env.NASA_API_KEY = false → env.CLIENT_NASA_API_KEY = some k → k ≠ "" →
      apiKey env = k) ∧
    (∀ k, truthyKey env.NASA_API_KEY = false → truthyKey env.CLIENT_NASA_API_KEY = false →
      env.metaContent = some k → k ≠ "" → apiKey env = k) ∧
    (truthyKey env.NASA_API_KEY = false → truthyKey env.CLIENT_NASA_API_KEY = false →
      truthyKey env.metaContent = false → apiKey env = "hdjf") := by
  refine ⟨?_, ?_, ?_, ?_, ?_⟩
  · have q1 := (debugLog_quiet env "/.netlify/functions/apod" "Netlify function not available").1
    have q2 := (debugLog_quiet env "/api/apod" "Local API proxy not available").1
    rcases source_ok_or_fails env (keyUrl env) with ⟨html, h3⟩ | h3
    · rw [initAPOD_third harea h1 h2 h3]
      simp only [requests_append, requests_fetch, requests_setInnerHTML, requests_warn,
        requests_nil, q1, q2, keyUrl, List.nil_append, List.cons_append, List.append_nil]
    · obtain ⟨e, he⟩ := initAPOD_none harea h1 h2 h3
      rw [he]
      simp only [requests_append, requests_fetch, requests_setInnerHTML, requests_warn,
        requests_nil, q1, q2, keyUrl, List.nil_append, List.cons_append, List.append_nil]
  · intro k hk hne
    apply apiKey_of_client hne
    simp [jsOr, hk, truthyKey, string_ne_empty hne]
  · intro k hn hk hne
    apply apiKey_of_client hne
    simp [jsOr, hn, hk]
  · intro k hn hc hk hne
    rw [apiKey_of_no_client hn hc, hk]
    simp [string_ne_empty hne]
  · intro hn hc hm
    rw [apiKey_of_no_client hn hc]
    cases hmc : env.metaContent with
    | none => rfl
    | some k =>
      rw [hmc] at hm
      simp [truthyKey] at hm
      simp [hm]

/-- C3 at an environment where every request is answered 503 and the page
global holds the key `a b`: three requests, the last one with the escaped key. -/
theorem c3_single_key_request_witness :
    SourceFails (envDown 503 (some "a b")) "/.netlify/functions/apod" ∧
    SourceFails (envDown 503 (some "a b")) "/api/apod" ∧
    requests (initAPOD (envDown 503 (some "a b"))).2 =
      ["/.netlify/functions/apod", "/api/apod",
       "https://api.nasa.gov/planetary/apod?api_key=a%20b"] :=
  ⟨Or.inr (Or.inl ⟨_, rfl, rfl⟩), Or.inr (Or.inl ⟨_, rfl, rfl⟩),
   (c3_single_key_request (envDown 503 (some "a b")) rfl
     (Or.inr (Or.inl ⟨_, rfl, rfl⟩)) (Or.inr (Or.inl ⟨_, rfl, rfl⟩))).1⟩

/-- C4: when the target area exists and all three attempts fail (each one
because the fetch rejects, the status is not 2xx, the body does not parse or
the parsed value does not render), the run completes without throwing and
assigns the area exactly once, the fixed text
`<p class="muted">Unable to load NASA APOD.</p>`; the error itself goes to
`console.warn` only. -/
theorem c4_exhaustion_paints_placeholder (env : Env) (harea : env.area = true)
    (h1 : SourceFails env "/.netlify/functions/apod") (h2 : SourceFails env "/api/apod")
    (h3 : SourceFails env (keyUrl env)) :
    (initAPOD env).1 = .ok () ∧
    writes (initAPOD env).2 = [js "<p class=\"muted\">Unable to load NASA APOD.</p>"] ∧
    ∃ e, (initAPOD env).2 =
      .fetch "/.netlify/functions/apod" ::
        debugLog env "/.netlify/functions/apod" "Netlify function not available" ++
      .fetch "/api/apod" :: debugLog env "/api/apod" "Local API proxy not available" ++
      [.fetch (keyUrl env), .setInnerHTML (js "<p class=\"muted\">Unable to load NASA APOD.</p>"),
        .warn "APOD initialization error:" e] := by
  obtain ⟨e, he⟩ := initAPOD_none harea h1 h2 h3
  have q1 := (debugLog_quiet env "/.netlify/functions/apod" "Netlify function not available").2
  have q2 := (debugLog_quiet env "/api/apod" "Local API proxy not available").2
  refine ⟨initAPOD_completes env, ?_, e, by rw [he]; rfl⟩
  rw [he]
  simp only [writes_append, writes_fetch, writes_setInnerHTML, writes_warn, writes_nil, q1, q2,
    List.nil_append, List.cons_append, List.append_nil]
  rfl

/-- C4 at an environment where every request is answered 500 and no page-global
key is set. -/
theorem c4_exhaustion_paints_placeholder_witness :
    (initAPOD (envDown 500 none)).1 = .ok () ∧
    writes (initAPOD (envDown 500 none)).2 =
      [js "<p class=\"muted\">Unable to load NASA APOD.</p>"] :=
  ⟨(c4_exhaustion_paints_placeholder (envDown 500 none) rfl (Or.inr (Or.inl ⟨_, rfl, rfl⟩))
      (Or.inr (Or.inl ⟨_, rfl, rfl⟩)) (Or.inr (Or.inl ⟨_, rfl, rfl⟩))).1,
   (c4_exhaustion_paints_placeholder (envDown 500 none) rfl (Or.inr (Or.inl ⟨_, rfl, rfl⟩))
      (Or.inr (Or.inl ⟨_, rfl, rfl⟩)) (Or.inr (Or.inl ⟨_, rfl, rfl⟩))).2.1⟩

/-- C5: when the target area exists, whatever the three sources answer, one run
assigns the area's content exactly once, and the assigned value is the markup
of the first source, in the order managed proxy, local proxy, key-based
request, whose attempt succeeds (ok response, body parses, record renders), or
the error placeholder when no attempt succeeds. -/
theorem c5_exactly_one_write (env : Env) (harea : env.area = true) :
    (writes (initAPOD env).2).length = 1 ∧
    ∃ html, writes (initAPOD env).2 = [html] ∧
      (acquireSpec env = some html ∨
        (acquireSpec env = none ∧ html = js "<p class=\"muted\">Unable to load NASA APOD.</p>")) := by
  have q1 := (debugLog_quiet env "/.netlify/functions/apod" "Netlify function not available").2
  have q2 := (debugLog_quiet env "/api/apod" "Local API proxy not available").2
  have main : ∃ html, writes (initAPOD env).2 = [html] ∧
      (acquireSpec env = some html ∨
        (acquireSpec env = none ∧
          html = js "<p class=\"muted\">Unable to load NASA APOD.</p>")) := by
    rcases source_ok_or_fails env "/.netlify/functions/apod" with ⟨html, h1⟩ | h1
    · refine ⟨html, ?_, Or.inl ?_⟩
      · rw [initAPOD_first harea h1]; rfl
      · simp [acquireSpec, List.findSome?, sourceMarkup_of_ok h1]
    · rcases source_ok_or_fails env "/api/apod" with ⟨html, h2⟩ | h2
      · refine ⟨html, ?_, Or.inl ?_⟩
        · rw [initAPOD_second harea h1 h2]
          simp only [writes_append, writes_fetch, writes_setInnerHTML, writes_nil, q1,
            List.nil_append, List.cons_append]
        · simp [acquireSpec, List.findSome?, sourceMarkup_of_fails h1, sourceMarkup_of_ok h2]
      · rcases source_ok_or_fails env (keyUrl env) with ⟨html, h3⟩ | h3
        · refine ⟨html, ?_, Or.inl ?_⟩
          · rw [initAPOD_third harea h1 h2 h3]
            simp only [writes_append, writes_fetch, writes_setInnerHTML, writes_nil, q1, q2,
              List.nil_append, List.cons_append]
          · simp [acquireSpec, List.findSome?, sourceMarkup_of_fails h1,
              sourceMarkup_of_fails h2, sourceMarkup_of_ok h3]
        · obtain ⟨e, he⟩ := initAPOD_none harea h1 h2 h3
          refine ⟨_, ?_, Or.inr ⟨?_, rfl⟩⟩
          · rw [he]
            simp only [writes_append, writes_fetch, writes_setInnerHTML, writes_warn,
              writes_nil, q1, q2, List.nil_append, List.cons_append]
            rfl
          · simp [acquireSpec, List.findSome?, sourceMarkup_of_fails h1,
              sourceMarkup_of_fails h2, sourceMarkup_of_fails h3]
  obtain ⟨html, hw, hs⟩ := main
  exact ⟨by rw [hw]; rfl, html, hw, hs⟩

/-- C5 at an environment whose only answering source is the key-based request. -/
theorem c5_exactly_one_write_witness :
    (writes (initAPOD
      (envOnly "https://api.nasa.gov/planetary/apod?api_key=hdjf" sampleVideo)).2).length = 1 :=
  (c5_exactly_one_write
    (envOnly "https://api.nasa.gov/planetary/apod?api_key=hdjf" sampleVideo) rfl).1

/-- C6: every field value in the markup has passed through `escapeHtml`, and
`escapeHtml` leaves no `<`, no `>` and no bare `&`.  For every value `v`, the
text `escapeHtml(v)` contains neither `<` nor `>`, and every `&` in it is
followed by `amp;`, `lt;` or `gt;`.  For every record that renders, the markup
is the heading template around `escapeHtml(title || "NASA APOD")`, followed by
nothing, the img template around `escapeHtml(url)` and `escapeHtml(title)`, or
the link template around `escapeHtml(url)`, followed by nothing or the
paragraph template around `escapeHtml(explanation.slice(0, 200))`; its angle
brackets are exactly those of the templates used; and a title `<script>` shows
as `<h4>&lt;script&gt;</h4>`. -/
theorem c6_fields_escaped (data : JsVal) (html : JsString) (v : JsVal) (out : JsString)
    (hrender : renderMarkup data = .ok html) (hesc : escapeHtml v = .ok out) :
    ('<'.toNat ∉ out ∧ '>'.toNat ∉ out ∧
      ∀ pre post, out = pre ++ '&'.toNat :: post → EntityTail post) ∧
    (∃ title mt url expl shown md ex,
      getProp data "title" = .ok title ∧ getProp data "media_type" = .ok mt ∧
      getProp data "url" = .ok url ∧ getProp data "explanation" = .ok expl ∧
      escapeHtml (if truthy title then title else .str (js "NASA APOD")) = .ok shown ∧
      html = js "<h4>" ++ shown ++ js "</h4>" ++ md ++ ex ∧
      (md = [] ∨
        (∃ src alt, escapeHtml url = .ok src ∧ escapeHtml title = .ok alt ∧
          md = js "<img src=\"" ++ src ++ js "\" alt=\"" ++ alt ++ js "\">") ∨
        (∃ href, escapeHtml url = .ok href ∧
          md = js "<a href=\"" ++ href ++
            js "\" target=\"_blank\" rel=\"noopener\">View video</a>")) ∧
      (ex = [] ∨
        ∃ cut text, sliceCall expl = .ok cut ∧ escapeHtml cut = .ok text ∧
          ex = js "<p class=\"muted\">" ++ text ++ js "...</p>") ∧
      angles html = js "<><>" ++ mediaBrackets mt ++ paragraphBrackets expl) ∧
    (getProp data "title" = .ok (.str (js "<script>")) →
      js "<h4>&lt;script&gt;</h4>" <+: html) := by
  obtain ⟨t, -, hout⟩ := escapeHtml_ok hesc
  obtain ⟨hd, md, ex, hh, hm, hx, hhtml⟩ := renderMarkup_ok hrender
  obtain ⟨title, shown, htitle, hshown, hhd⟩ := headingPart_ok hh
  obtain ⟨mt, hmt, hmcase⟩ := mediaPart_ok hm
  obtain ⟨expl, hexpl, hxcase⟩ := explanationPart_ok hx
  obtain ⟨url, hurl⟩ := getProp_total htitle "url"
  refine ⟨?_, ?_, ?_⟩
  · subst hout
    exact ⟨escapeText_no_lt t, escapeText_no_gt t, fun pre post e => escapeText_amp t pre post e⟩
  · refine ⟨title, mt, url, expl, shown, md, ex, htitle, hmt, hurl, hexpl, hshown,
      by rw [hhtml, hhd], ?_, ?_, (renderMarkup_shape hrender hmt hexpl).2.2⟩
    · rcases hmcase with ⟨-, url2, src, title2, alt, hu, hs, ht, ha, e⟩ |
        ⟨-, url2, href, hu, hs, e⟩ | ⟨-, -, e⟩
      · rw [hurl] at hu
        injection hu with hu
        subst hu
        rw [htitle] at ht
        injection ht with ht
        subst ht
        exact Or.inr (Or.inl ⟨src, alt, hs, ha, e⟩)
      · rw [hurl] at hu
        injection hu with hu
        subst hu
        exact Or.inr (Or.inr ⟨href, hs, e⟩)
      · exact Or.inl e
    · rcases hxcase with ⟨-, cut, text, hc, hx2, e⟩ | ⟨-, e⟩
      · exact Or.inr ⟨cut, text, hc, hx2, e⟩
      · exact Or.inl e
  · intro hs
    rw [htitle] at hs
    injection hs with hs
    subst hs
    have e1 : shown = js "&lt;script&gt;" := by
      have h1 : truthy (.str (js "<script>")) = true := by decide
      rw [h1, if_pos rfl] at hshown
      have h2 : escapeHtml (.str (js "<script>")) = .ok (js "&lt;script&gt;") := rfl
      rw [h2] at hshown
      injection hshown with hshown
      exact hshown.symm
    subst e1
    refine ⟨md ++ ex, ?_⟩
    rw [hhtml, hhd, List.append_assoc]
    rfl

/-- C6 at the second example of the specification: `sampleVideo` and the text
`a<b>&c`. -/
theorem c6_fields_escaped_witness :
    ('<'.toNat ∉ js "a&lt;b&gt;&amp;c" ∧ '>'.toNat ∉ js "a&lt;b&gt;&amp;c") ∧
    js "<h4>&lt;script&gt;</h4>" <+: sampleVideoMarkup := by
  set_option maxRecDepth 100000 in
  have h := c6_fields_escaped sampleVideo sampleVideoMarkup (.str (js "a<b>&c"))
    (js "a&lt;b&gt;&amp;c") rfl rfl
  exact ⟨⟨h.1.1, h.1.2.1⟩, h.2.2 rfl⟩

/-- C7 (code evaluated at the failing input): `escapeHtml` returns a double
quote unchanged, so a `url` holding one ends the `src` attribute and the rest of
the value is parsed as further attributes of the `img` element. -/
theorem c7_quote_passes_escapeHtml :
    escapeHtml (.str (js "\"")) = .ok (js "\"") ∧
    renderMarkup (.obj [("title", .str (js "t")), ("media_type", .str (js "image")),
        ("url", .str (js "x\" onerror=\"alert(1)"))]) =
      .ok (js "<h4>t</h4><img src=\"x\" onerror=\"alert(1)\" alt=\"t\">") :=
  ⟨rfl, rfl⟩

/-- C8: the media element of the markup is decided by a closed three-way
dispatch on `media_type`.  The markup contains an `<img` tag exactly when
`media_type` is the string `image`, and then it contains
`<img src="` + escaped url + `"`; it contains an `<a ` tag exactly when
`media_type` is the string `video`, and then it contains
`<a href="` + escaped url + `"`; the two never occur together; for every other
or missing `media_type` the markup is the heading followed by the (possibly
empty) explanation paragraph only. -/
theorem c8_media_dispatch (data : JsVal) (html : JsString)
    (hrender : renderMarkup data = .ok html) :
    ∃ mt url, getProp data "media_type" = .ok mt ∧ getProp data "url" = .ok url ∧
      (containsText (js "<img") html ↔ mt = .str (js "image")) ∧
      (containsText (js "<a ") html ↔ mt = .str (js "video")) ∧
      (mt = .str (js "image") → ∃ src, escapeHtml url = .ok src ∧
        containsText (js "<img src=\"" ++ src ++ js "\"") html) ∧
      (mt = .str (js "video") → ∃ href, escapeHtml url = .ok href ∧
        containsText (js "<a href=\"" ++ href ++ js "\"") html) ∧
      (mt ≠ .str (js "image") → mt ≠ .str (js "video") →
        ∃ hd ex, headingPart data = .ok hd ∧ explanationPart data = .ok ex ∧
          html = hd ++ ex) := by
  obtain ⟨hd0, md0, ex0, hh0, -, -, -⟩ := renderMarkup_ok hrender
  obtain ⟨title0, shown0, ht0, -, -⟩ := headingPart_ok hh0
  obtain ⟨mt, hmt⟩ := getProp_total ht0 "media_type"
  obtain ⟨url, hurl⟩ := getProp_total ht0 "url"
  obtain ⟨expl, hexpl⟩ := getProp_total ht0 "explanation"
  have hshape := (renderMarkup_shape hrender hmt hexpl).1
  obtain ⟨hd, ex, hh, hx, hcase⟩ := renderMarkup_media hrender hmt hurl
  have himg : mt = .str (js "image") → ∃ src, escapeHtml url = .ok src ∧
      containsText (js "<img src=\"" ++ src ++ js "\"") html := by
    intro hi
    rcases hcase with ⟨-, src, title, alt, hs, -, -, rfl⟩ | ⟨hv, -⟩ | ⟨hn, -, -⟩
    · refine ⟨src, hs, containsText_of_eq hd (js " alt=\"" ++ alt ++ js "\">" ++ ex) ?_⟩
      simp only [List.append_assoc]
      rfl
    · exact absurd (hi.symm.trans hv) image_ne_video
    · exact absurd hi hn
  have hlink : mt = .str (js "video") → ∃ href, escapeHtml url = .ok href ∧
      containsText (js "<a href=\"" ++ href ++ js "\"") html := by
    intro hv
    rcases hcase with ⟨hi, -⟩ | ⟨-, href, hs, rfl⟩ | ⟨-, hn, -⟩
    · exact absurd (hi.symm.trans hv) image_ne_video
    · refine ⟨href, hs, containsText_of_eq hd
        (js " target=\"_blank\" rel=\"noopener\">View video</a>" ++ ex) ?_⟩
      simp only [List.append_assoc]
      rfl
    · exact absurd hv hn
  refine ⟨mt, url, hmt, hurl, ⟨?_, ?_⟩, ⟨?_, ?_⟩, himg, hlink, ?_⟩
  · intro hc
    have hmem : 'i'.toNat ∈ tagLetters html :=
      mem_tagLetters_of_contains 'i'.toNat (js "mg") rfl hc
    unfold tagLetters at hmem
    rw [hshape, List.mem_append, List.mem_append] at hmem
    rcases hmem with (hmem | hmem) | hmem
    · exact absurd hmem (by decide)
    · exact mem_mediaLetters_i hmem
    · rcases mem_paragraphLetters hmem with h | h
      · exact absurd h (by decide)
      · exact absurd h (by decide)
  · intro hi
    obtain ⟨src, -, hc⟩ := himg hi
    obtain ⟨pre, post, e⟩ := hc
    refine ⟨pre, (js " src=\"" ++ src ++ js "\"") ++ post, ?_⟩
    rw [← e]
    simp only [List.append_assoc]
    rfl
  · intro hc
    have hmem : 'a'.toNat ∈ tagLetters html :=
      mem_tagLetters_of_contains 'a'.toNat (js " ") rfl hc
    unfold tagLetters at hmem
    rw [hshape, List.mem_append, List.mem_append] at hmem
    rcases hmem with (hmem | hmem) | hmem
    · exact absurd hmem (by decide)
    · exact mem_mediaLetters_a hmem
    · rcases mem_paragraphLetters hmem with h | h
      · exact absurd h (by decide)
      · exact absurd h (by decide)
  · intro hv
    obtain ⟨href, -, hc⟩ := hlink hv
    obtain ⟨pre, post, e⟩ := hc
    refine ⟨pre, (js "href=\"" ++ href ++ js "\"") ++ post, ?_⟩
    rw [← e]
    simp only [List.append_assoc]
    rfl
  · intro hi hv
    rcases hcase with ⟨hi2, -⟩ | ⟨hv2, -⟩ | ⟨-, -, e⟩
    · exact absurd hi2 hi
    · exact absurd hv2 hv
    · exact ⟨hd, ex, hh, hx, e⟩

/-- C8 at the sample image record (first example of the specification): the
markup holds the image reference to `http://a/b.png` and no link. -/
theorem c8_media_dispatch_witness :
    containsText (js "<img src=\"http://a/b.png\"")
      (js "<h4>X</h4><img src=\"http://a/b.png\" alt=\"X\">") ∧
    ¬ containsText (js "<a ") (js "<h4>X</h4><img src=\"http://a/b.png\" alt=\"X\">") := by
  obtain ⟨mt, url, hmt, hurl, -, hlink, himg, -, -⟩ :=
    c8_media_dispatch sampleImage (js "<h4>X</h4><img src=\"http://a/b.png\" alt=\"X\">") rfl
  have e1 : mt = .str (js "image") := by
    have h : getProp sampleImage "media_type" = .ok (.str (js "image")) := rfl
    rw [h] at hmt
    injection hmt with hmt
    exact hmt.symm
  have e2 : url = .str (js "http://a/b.png") := by
    have h : getProp sampleImage "url" = .ok (.str (js "http://a/b.png")) := rfl
    rw [h] at hurl
    injection hurl with hurl
    exact hurl.symm
  subst e1 e2
  obtain ⟨src, hs, hc⟩ := himg rfl
  have e3 : src = js "http://a/b.png" := by
    have h : escapeHtml (.str (js "http://a/b.png")) = .ok (js "http://a/b.png") := rfl
    rw [h] at hs
    injection hs with hs
    exact hs.symm
  subst e3
  exact ⟨hc, fun h => image_ne_video (hlink.1 h)⟩

/-- C9 as stated fails on the code in three ways.  A record whose explanation
is present and empty gets no paragraph at all: its markup is the heading alone
and does not end with `<p class="muted">...</p>`.  A record without explanation
whose title is `Wait...` has an ellipsis in its markup.  And an explanation of
150 characters U+1F600, fewer than 200, is not shown whole: `slice(0, 200)`
counts UTF-16 code units, so 100 of them are shown. -/
theorem c9_empty_explanation_has_no_paragraph :
    (getProp (.obj [("explanation", .str (js ""))]) "explanation" = .ok (.str (js "")) ∧
      renderMarkup (.obj [("explanation", .str (js ""))]) = .ok (js "<h4>NASA APOD</h4>") ∧
      ¬ (js "<p class=\"muted\">...</p>" <:+ js "<h4>NASA APOD</h4>") ∧
      ¬ containsText (js "<p") (js "<h4>NASA APOD</h4>")) ∧
    (getProp (.obj [("title", .str (js "Wait..."))]) "explanation" = .ok .undefined ∧
      renderMarkup (.obj [("title", .str (js "Wait..."))]) = .ok (js "<h4>Wait...</h4>") ∧
      containsText (js "...") (js "<h4>Wait...</h4>")) ∧
    ((List.replicate 150 grinning).length = 150 ∧
      renderMarkup (.obj [("explanation", .str (js ⟨List.replicate 150 grinning⟩))]) =
        .ok (js "<h4>NASA APOD</h4><p class=\"muted\">" ++ js ⟨List.replicate 100 grinning⟩ ++
          js "...</p>")) := by
  set_option maxRecDepth 100000 in
  exact ⟨⟨rfl, rfl, by decide, by decide⟩, ⟨rfl, rfl, by decide⟩, ⟨rfl, rfl⟩⟩

/-- C9, amended: for every record that renders, whose explanation is a
non-empty string `e`, the markup is the heading and media element followed by
one muted paragraph holding the escaped first 200 UTF-16 code units of `e` (all
of `e` when it has at most 200) and the marker `...`; it is the only `<p` tag.
When the explanation is absent (`undefined`), `null` or the empty string, the
markup is the heading and media element only: no `<p` tag occurs, and three
dots occur in it only if they occur in the text of the title (or its default)
or of the url. -/
theorem c9_explanation_paragraph (data : JsVal) (html : JsString)
    (hrender : renderMarkup data = .ok html) :
    ∃ hd md title url expl, headingPart data = .ok hd ∧ mediaPart data = .ok md ∧
      getProp data "title" = .ok title ∧ getProp data "url" = .ok url ∧
      getProp data "explanation" = .ok expl ∧
      (∀ e, expl = .str e → e ≠ [] →
        html = hd ++ md ++ (js "<p class=\"muted\">" ++ escapeText (e.take 200) ++ js "...</p>") ∧
        (e.take 200).length ≤ 200 ∧
        (e.length ≤ 200 → e.take 200 = e) ∧
        (tagLetters html).count 'p'.toNat = 1) ∧
      (expl = .undefined ∨ expl = .null ∨ expl = .str [] →
        html = hd ++ md ∧ 'p'.toNat ∉ tagLetters html ∧
        (containsText (js "...") html →
          ∃ v t, (v = (if truthy title then title else .str (js "NASA APOD")) ∨
              v = url ∨ v = title) ∧
            toStr v = .ok t ∧ containsText (js "...") t)) := by
  obtain ⟨hd, md, ex, hh, hm, hx, hhtml⟩ := renderMarkup_ok hrender
  obtain ⟨expl, hexpl, hxcase⟩ := explanationPart_ok hx
  obtain ⟨mt, hmt⟩ := getProp_total hexpl "media_type"
  obtain ⟨title, htitle⟩ := getProp_total hexpl "title"
  obtain ⟨url, hurl⟩ := getProp_total hexpl "url"
  have hshape := (renderMarkup_shape hrender hmt hexpl).1
  refine ⟨hd, md, title, url, expl, hh, hm, htitle, hurl, hexpl, ?_, ?_⟩
  · intro e he hne
    subst he
    have htr : truthy (.str e) = true := by
      cases e with
      | nil => exact absurd rfl hne
      | cons c cs => rfl
    refine ⟨?_, List.length_take_le _ _, fun hl => List.take_of_length_le hl, ?_⟩
    · rcases hxcase with ⟨-, cut, text, hc, hx2, e2⟩ | ⟨hf, -⟩
      · simp only [sliceCall, Except.ok.injEq] at hc
        subst hc
        simp only [escapeHtml, toStr, Except.ok.injEq] at hx2
        subst hx2
        rw [hhtml, e2]
      · rw [htr] at hf; cases hf
    · unfold tagLetters
      rw [hshape, paragraphLetters, if_pos htr, List.count_append, List.count_append,
        List.count_eq_zero.2 (not_mem_mediaLetters_p mt)]
      rfl
  · intro habs
    have hfalse : truthy expl = false := by
      rcases habs with h | h | h <;> subst h <;> rfl
    refine ⟨?_, ?_, fun hc => markup_dots_source hrender htitle hurl hexpl hfalse hc⟩
    · rcases hxcase with ⟨ht, -⟩ | ⟨-, e2⟩
      · rw [hfalse] at ht; cases ht
      · rw [hhtml, e2, List.append_nil]
    · unfold tagLetters
      rw [hshape, List.mem_append, List.mem_append]
      rintro ((h | h) | h)
      · exact absurd h (by decide)
      · exact not_mem_mediaLetters_p mt h
      · rw [paragraphLetters, hfalse] at h
        cases h

/-- C9 (amended) at two records: the video record of the specification's
second example, whose explanation is 300 letters `A`, shows 200 of them in its
only paragraph; `sampleAstral` shows exactly its first 200 code units, the last
one being half of a surrogate pair. -/
theorem c9_explanation_paragraph_witness :
    ((∃ base, sampleVideoMarkup = base ++
        (js "<p class=\"muted\">" ++ List.replicate 200 'A'.toNat ++ js "...</p>")) ∧
      (tagLetters sampleVideoMarkup).count 'p'.toNat = 1) ∧
    (∃ base, sampleAstralMarkup = base ++
      (js "<p class=\"muted\">" ++ (js ⟨'A' :: List.replicate 99 grinning⟩ ++ [0xD83D]) ++
        js "...</p>")) := by
  set_option maxRecDepth 100000 in
  obtain ⟨hd, md, title, url, expl, -, -, -, -, hexpl, hpresent, -⟩ :=
    c9_explanation_paragraph sampleVideo sampleVideoMarkup rfl
  set_option maxRecDepth 100000 in
  obtain ⟨hd2, md2, title2, url2, expl2, -, -, -, -, hexpl2, hpresent2, -⟩ :=
    c9_explanation_paragraph sampleAstral sampleAstralMarkup rfl
  have e1 : expl = .str (List.replicate 300 'A'.toNat) := by
    have h : getProp sampleVideo "explanation" = .ok (.str (List.replicate 300 'A'.toNat)) := rfl
    rw [h] at hexpl
    injection hexpl with hexpl
    exact hexpl.symm
  have e2 : expl2 = .str (js ⟨'A' :: List.replicate 150 grinning⟩) := by
    have h : getProp sampleAstral "explanation" =
        .ok (.str (js ⟨'A' :: List.replicate 150 grinning⟩)) := rfl
    rw [h] at hexpl2
    injection hexpl2 with hexpl2
    exact hexpl2.symm
  obtain ⟨hm, -, -, hcount⟩ := hpresent _ e1 (by decide)
  obtain ⟨hm2, -, -, -⟩ := hpresent2 _ e2 (by decide)
  refine ⟨⟨⟨hd ++ md, ?_⟩, hcount⟩, ⟨hd2 ++ md2, ?_⟩⟩
  · rw [hm]
    have e3 : escapeText (List.take 200 (List.replicate 300 'A'.toNat)) =
        List.replicate 200 'A'.toNat := by decide
    rw [e3]
  · rw [hm2]
    have e4 : escapeText (List.take 200 (js ⟨'A' :: List.replicate 150 grinning⟩)) =
        js ⟨'A' :: List.replicate 99 grinning⟩ ++ [0xD83D] := by decide
    rw [e4]

/-- C10 (code evaluated at the failing input): with the title absent the
heading shows the default `NASA APOD` but the `alt` text of the image is the
stand-in text `undefined`; an absent url reaches `href` the same way. -/
theorem c10_absent_title_reaches_alt :
    renderMarkup (.obj [("media_type", .str (js "image")),
        ("url", .str (js "http://a/b.png"))]) =
      .ok (js "<h4>NASA APOD</h4><img src=\"http://a/b.png\" alt=\"undefined\">") ∧
    containsText (js "undefined")
      (js "<h4>NASA APOD</h4><img src=\"http://a/b.png\" alt=\"undefined\">") ∧
    renderMarkup (.obj [("title", .str (js "X")), ("media_type", .str (js "video"))]) =
      .ok (js "<h4>X</h4><a href=\"undefined\" target=\"_blank\" rel=\"noopener\">View video</a>") := by
  set_option maxRecDepth 100000 in
  exact ⟨rfl, ⟨js "<h4>NASA APOD</h4><img src=\"http://a/b.png\" alt=\"", js "\">", rfl⟩, rfl⟩

end AstroLens
